import Mathlib

/-!
Verification development for the openevolve-go repository.

The Go sources are shallowly embedded as Lean definitions:

* Go `map[string]T` becomes an association list `List (String × T)`
  (insertion overwrites an existing key in place, otherwise appends;
  Go iterates maps in an unspecified order, the model iterates in list
  order; every theorem proved below is insensitive to that order).
* Go `float64` score and feature values become `ℚ`.  The handful of
  places where the Go code can produce an IEEE infinity (the initial
  per-dimension statistics, the initial best score) are modelled with an
  explicit extended-rational type `ERat`.
* Wall-clock fields (timestamps, durations) and logging are omitted:
  no modelled operation reads them.  The `Mean`/`Std` fields of
  `FeatureStats` are likewise omitted: they are write-only in the
  embedded fragment (`Std` is computed with a floating square root and
  read by nothing).
* External effects (the evaluator child process, the JSON library, the
  random number generator, UUID generation) enter the model as explicit
  parameters of the functions that consume them.
-/

namespace OpenEvolveGo

/- Core rational arithmetic is marked irreducible, which stops the
decide tactic from evaluating concrete test states; restore the
default transparency for this file. -/
attribute [local semireducible] Rat.add Rat.mul Rat.sub Rat.inv Rat.ofScientific

/-! ## Association-list model of Go string-keyed maps -/

/-- Lookup in a Go map modelled as an association list. -/
def alookup {α : Type} (m : List (String × α)) (k : String) : Option α :=
  match m with
  | [] => none
  | (k₀, v₀) :: rest => if k₀ = k then some v₀ else alookup rest k

/-- Keys of the map, in model order. -/
def akeys {α : Type} (m : List (String × α)) : List String :=
  m.map (·.1)

/-- Go map assignment `m[k] = v`: overwrite the binding when the key is
present, otherwise append a fresh binding. -/
def ainsert {α : Type} (m : List (String × α)) (k : String) (v : α) :
    List (String × α) :=
  match m with
  | [] => [(k, v)]
  | (k₀, v₀) :: rest =>
      if k₀ = k then (k₀, v) :: rest else (k₀, v₀) :: ainsert rest k v

/-- Go `delete(m, k)`. -/
def aerase {α : Type} (m : List (String × α)) (k : String) :
    List (String × α) :=
  m.filter (fun kv => kv.1 ≠ k)

/-! ## Extended rationals

Go float64 values reachable in the embedded fragment are either finite
(modelled as `ℚ`) or one of the two infinities produced by
`math.Inf(±1)` in the initial island state.  `ERat.ltB` is the IEEE
`<` restricted to these values. -/

inductive ERat : Type where
  | negInf : ERat
  | posInf : ERat
  | fin : ℚ → ERat
deriving Repr, DecidableEq

/-- IEEE comparison `a < b` on non-NaN values. -/
def ERat.ltB : ERat → ERat → Bool
  | .negInf, .negInf => false
  | .negInf, _ => true
  | .fin _, .negInf => false
  | .fin q, .fin r => decide (q < r)
  | .fin _, .posInf => true
  | .posInf, _ => false

/-- Finite part of an extended rational.  The infinite cases are only
reached on Go states that the program cannot construct (statistics with
a positive count but infinite bounds); Go would compute with ±Inf/NaN
there, the model maps the infinities to 0. -/
def ERat.toRat : ERat → ℚ
  | .fin q => q
  | _ => 0

/-- Go `int(x)` conversion for a finite float: truncation toward zero. -/
def qtrunc (q : ℚ) : Int :=
  if 0 ≤ q then q.floor else -((-q).floor)

/-! ## Data model

`types.Program` is declared in the `types` package concatenated into
`pkg/config/config.go` (lines 508-519): identity, code, feature
vector, score, fitness, generation, island assignment, an artifact
map and two timestamps.  The artifact map and the timestamps are
omitted: no modelled operation reads them.  `IslandID` is a plain Go
`int`, so a program constructed without setting it carries the zero
value 0 — itself a valid island index, not an "unset" sentinel. -/

structure Program : Type where
  id : String
  code : String
  score : ℚ
  fitness : ℚ
  features : List ℚ
  generation : Nat
  islandID : Int
deriving Repr, DecidableEq

/-- Per-dimension feature statistics (island.go).  `Mean`, `Std` and
`LastUpdate` are omitted: they are written but never read in the
embedded fragment (`Std` needs a floating square root). -/
structure FeatureStats : Type where
  min : ERat
  max : ERat
  count : Nat
deriving Repr, DecidableEq

/-- Go zero value of `FeatureStats`, returned by a map read on a
missing key. -/
def FeatureStats.zero : FeatureStats :=
  { min := .fin 0, max := .fin 0, count := 0 }

/-- MAP-Elites grid (island.go). -/
structure MAPGrid : Type where
  dimensions : List String
  resolution : List (String × Int)
  bounds : List (String × (ℚ × ℚ))
  cells : List (String × Program)
  totalCells : Int
  filledCells : Nat
deriving Repr, DecidableEq

/-- Island (island.go). -/
structure Island : Type where
  id : Nat
  programs : List (String × Program)
  grid : MAPGrid
  bestProgram : Option Program
  bestScore : ERat
  bestID : String
  generation : Nat
  migrated : Nat
  featureStats : List (String × FeatureStats)
deriving Repr, DecidableEq

/-- Fields of `types.DatabaseConfig` read by the embedded code. -/
structure DatabaseConfig : Type where
  numIslands : Nat
  gridDimensions : List String
  gridResolution : List (String × Int)
  gridBounds : List (String × (ℚ × ℚ))
  migrationInterval : Int
  migrationRate : ℚ
deriving Repr, DecidableEq

/-- Evolution statistics counters (types.EvolutionStats); wall-clock
fields omitted. -/
structure EvolutionStats : Type where
  totalEvaluations : Nat
  successfulEvals : Nat
  failedEvals : Nat
deriving Repr, DecidableEq

/-- The program store (database.go).  The logger and the checkpoint
directory are omitted. -/
structure ProgramDatabase : Type where
  config : DatabaseConfig
  programs : List (String × Program)
  islands : List Island
  globalBest : Option Program
  globalBestScore : ERat
  currentIsland : Nat
  lastMigrationGeneration : Nat
  stats : EvolutionStats
deriving Repr, DecidableEq

/-- Placeholder island used to totalize list indexing; Go would panic
on an out-of-range island index, and every theorem below keeps indices
in range. -/
def Island.default : Island :=
  { id := 0, programs := [], bestProgram := none, bestScore := .negInf,
    bestID := "", generation := 0, migrated := 0, featureStats := [],
    grid := { dimensions := [], resolution := [], bounds := [], cells := [],
              totalCells := 1, filledCells := 0 } }

/-! ## Island operations (island.go) -/

/-- NewIsland (island.go:62-101). -/
def NewIsland (id : Nat) (config : DatabaseConfig) : Island :=
  let totalCells : Int := config.gridDimensions.foldl
    (fun acc dim => acc * ((alookup config.gridResolution dim).getD 10)) 1
  let featureStats := config.gridDimensions.foldl
    (fun fs dim => ainsert fs dim { min := .posInf, max := .negInf, count := 0 })
    ([] : List (String × FeatureStats))
  { id := id,
    programs := [],
    grid := { dimensions := config.gridDimensions,
              resolution := config.gridResolution,
              bounds := config.gridBounds,
              cells := [],
              totalCells := totalCells,
              filledCells := 0 },
    bestProgram := none,
    bestScore := .negInf,
    bestID := "",
    generation := 0,
    migrated := 0,
    featureStats := featureStats }

/-- Key segments of calculateCellKey: the loop body of
island.go:191-223, which appends one `dim:index;` segment per
dimension and stops early (Go `break`) when the feature vector runs
out.  The early-return guard of line 186 is applied by
`calculateCellKey` below. -/
def cellKeySegs (grid : MAPGrid) (features : List ℚ) :
    Nat → List String → String
  | _, [] => ""
  | dimIdx, dim :: rest =>
      if features.length ≤ dimIdx then ""
      else
        let feature := features.getD dimIdx 0
        let bounds := (alookup grid.bounds dim).getD (0, 1)
        let resolution := (alookup grid.resolution dim).getD 10
        let normalized := (feature - bounds.1) / (bounds.2 - bounds.1)
        let normalized :=
          if normalized < 0 then 0 else if normalized > 1 then 1 else normalized
        let index := qtrunc (normalized * ((resolution : ℚ) - 1))
        dim ++ ":" ++ toString index ++ ";" ++
          cellKeySegs grid features (dimIdx + 1) rest

/-- calculateCellKey (island.go:185-226).  Note the guard: a feature
vector whose length differs from the dimension count yields the empty
key. -/
def calculateCellKey (i : Island) (features : List ℚ) : String :=
  if features.length ≠ i.grid.dimensions.length then ""
  else cellKeySegs i.grid features 0 i.grid.dimensions

/-- Cell-key computation as the spec words it (spec section 4.1 and
the design note on arity drift): iterate
`min(len(features), len(dimensions))` dimensions, never discarding the
vector.  This is the comparison point for claim C6, not a translation
of the source. -/
def specCellKey (i : Island) (features : List ℚ) : String :=
  cellKeySegs i.grid features 0 i.grid.dimensions

/-- Loop body of updateFeatureStats (island.go:230-261): the Go
`for dimIdx, dim := range Dimensions` loop carried as a recursion on
the dimension list with its running index.  A dimension beyond the
feature length is skipped (Go `continue`). -/
def statsLoop (features : List ℚ) :
    Nat → List String → List (String × FeatureStats) →
    List (String × FeatureStats)
  | _, [], fs => fs
  | dimIdx, dim :: rest, fs =>
      if features.length ≤ dimIdx then statsLoop features (dimIdx + 1) rest fs
      else
        let feature := features.getD dimIdx 0
        let stats := (alookup fs dim).getD FeatureStats.zero
        let stats := if ERat.ltB (.fin feature) stats.min then
            { stats with min := .fin feature } else stats
        let stats := if ERat.ltB stats.max (.fin feature) then
            { stats with max := .fin feature } else stats
        let stats := { stats with count := stats.count + 1 }
        statsLoop features (dimIdx + 1) rest (ainsert fs dim stats)

/-- updateFeatureStats (island.go:229-262), with the write-only
mean/std updates omitted. -/
def updateFeatureStats (i : Island) (program : Program) : Island :=
  { i with featureStats :=
      statsLoop program.features 0 i.grid.dimensions i.featureStats }

/-- AddToGrid (island.go:104-126).  Returns the updated island and the
boolean result of the Go method. -/
def AddToGrid (i : Island) (program : Program) : Island × Bool :=
  let cellKey := calculateCellKey i program.features
  match alookup i.grid.cells cellKey with
  | none =>
      let i := { i with grid :=
        { i.grid with cells := ainsert i.grid.cells cellKey program,
                      filledCells := i.grid.filledCells + 1 } }
      (updateFeatureStats i program, true)
  | some existing =>
      if existing.score < program.score then
        let i := { i with grid :=
          { i.grid with cells := ainsert i.grid.cells cellKey program } }
        (updateFeatureStats i program, true)
      else
        (i, false)

/-- Loop body of ScaleFeatures (island.go:268-295), carried as a
recursion on the dimension list with its running index.  The raw
branch (count zero) stores the feature unclamped (Go `continue` skips
the clamp); the min-max and 0.5 branches are clamped to [0, 1]. -/
def scaleLoop (featureStats : List (String × FeatureStats)) (features : List ℚ) :
    Nat → List String → List ℚ → List ℚ
  | _, [], scaled => scaled
  | dimIdx, dim :: rest, scaled =>
      if features.length ≤ dimIdx then
        scaleLoop featureStats features (dimIdx + 1) rest scaled
      else
        let feature := features.getD dimIdx 0
        let stats := (alookup featureStats dim).getD FeatureStats.zero
        if stats.count = 0 then
          scaleLoop featureStats features (dimIdx + 1) rest (scaled.set dimIdx feature)
        else
          let v :=
            if ERat.ltB stats.min stats.max then
              (feature - stats.min.toRat) / (stats.max.toRat - stats.min.toRat)
            else (1 / 2 : ℚ)
          let v := if v < 0 then 0 else if v > 1 then 1 else v
          scaleLoop featureStats features (dimIdx + 1) rest (scaled.set dimIdx v)

/-- ScaleFeatures (island.go:265-298).  The result starts as a
zero-filled vector of the feature length (Go `make`), and the loop
over dimensions fills the positions it reaches. -/
def ScaleFeatures (i : Island) (features : List ℚ) : List ℚ :=
  scaleLoop i.featureStats features 0 i.grid.dimensions
    (List.replicate features.length 0)

/-- Zero value of Program, used only to totalize list indexing at
positions the proofs keep in range. -/
def Program.default : Program :=
  { id := "", code := "", score := 0, fitness := 0, features := [],
    generation := 0, islandID := 0 }

/-- Go float multiplication by a positive finite constant, extended to
the infinities. -/
def ERat.scaleBy (e : ERat) (c : ℚ) : ERat :=
  match e with
  | .negInf => .negInf
  | .posInf => .posInf
  | .fin q => .fin (q * c)

/-! ## Program store operations (database.go) -/

/-- New (database.go:414-454), without the logger and checkpoint
directory. -/
def New (config : DatabaseConfig) : ProgramDatabase :=
  { config := config,
    programs := [],
    islands := (List.range config.numIslands).map (fun i => NewIsland i config),
    globalBest := none,
    globalBestScore := .negInf,
    currentIsland := 0,
    lastMigrationGeneration := 0,
    stats := { totalEvaluations := 0, successfulEvals := 0, failedEvals := 0 } }

/-- AddProgram (database.go:456-527).  `freshId` stands in for the
UUID drawn when the program arrives without an id.  Go stores one
shared pointer in the global index, the island map and the grid, and
then overwrites its feature vector with the scaled vector; the model
scales first and stores the scaled program everywhere, which yields
the same final state.  The method always returns a nil error. -/
def AddProgram (db : ProgramDatabase) (freshId : String) (program : Program) :
    ProgramDatabase :=
  let program := if program.id = "" then { program with id := freshId } else program
  let targetIsland : Nat :=
    if 0 ≤ program.islandID ∧ program.islandID < (db.islands.length : Int) then
      program.islandID.toNat
    else db.currentIsland
  let island := db.islands.getD targetIsland Island.default
  let scaled := ScaleFeatures island program.features
  let program := { program with features := scaled }
  let db := { db with programs := ainsert db.programs program.id program }
  let island := { island with programs := ainsert island.programs program.id program }
  let island := (AddToGrid island program).1
  let island :=
    if ERat.ltB island.bestScore (.fin program.score) then
      { island with bestProgram := some program,
                    bestScore := .fin program.score,
                    bestID := program.id }
    else island
  let db := { db with islands := db.islands.set targetIsland island }
  let db :=
    if ERat.ltB db.globalBestScore (.fin program.score) then
      { db with globalBest := some program, globalBestScore := .fin program.score }
    else db
  let stats := { db.stats with totalEvaluations := db.stats.totalEvaluations + 1 }
  let stats :=
    if 0 < program.score then
      { stats with successfulEvals := stats.successfulEvals + 1 }
    else
      { stats with failedEvals := stats.failedEvals + 1 }
  let db := { db with stats := stats }
  { db with currentIsland := (db.currentIsland + 1) % db.islands.length }

/-- SampleFromGrid (island.go:135-153).  Go draws the index from the
wall clock; the model takes the draw as the `choice` parameter and
reduces it modulo the cell count. -/
def SampleFromGrid (i : Island) (choice : Nat) : Option Program :=
  if i.grid.cells.length = 0 then none
  else some ((i.grid.cells.getD (choice % i.grid.cells.length)
    ("", Program.default)).2)

/-- Inner top-up loop of SampleMultiple (database.go:600-610): while
fewer than `remaining` more programs are needed and the global index
is non-empty, append the globally sampled program.  `globalChoice`
stands in for the random draws, numbered by `step`. -/
def sampleTopUp (programs : List (String × Program)) (globalChoice : Nat → Nat) :
    Nat → Nat → List Program → List Program
  | _, 0, acc => acc
  | step, rem + 1, acc =>
      if programs.length = 0 then acc
      else
        let p := (programs.getD (globalChoice step % programs.length)
          ("", Program.default)).2
        sampleTopUp programs globalChoice (step + 1) rem (acc ++ [p])

/-- Body of the per-island loop of SampleMultiple (database.go:582-597):
visit the island `i` places after the cursor, preferring its grid and
falling back on its best program. -/
def phase1Step (db : ProgramDatabase) (gridChoice : Nat → Nat)
    (acc : List Program) (i : Nat) : List Program :=
  let islandID := (db.currentIsland + i) % db.islands.length
  let island := db.islands.getD islandID Island.default
  match SampleFromGrid island (gridChoice i) with
  | some p => acc ++ [p]
  | none =>
      match island.bestProgram with
      | some bp => acc ++ [bp]
      | none => acc

/-- SampleMultiple (database.go:571-613).  The two oracle functions
stand in for the random draws of the grid sampler and of the global
top-up loop. -/
def SampleMultiple (db : ProgramDatabase) (count : Int)
    (gridChoice globalChoice : Nat → Nat) : Except String (List Program) :=
  if count ≤ 0 then .error "invalid sample count"
  else
    let phase1 := (List.range (min count.toNat db.islands.length)).foldl
      (phase1Step db gridChoice) ([] : List Program)
    .ok (sampleTopUp db.programs globalChoice 0 (count.toNat - phase1.length) phase1)

/-- One migration move (database.go:644-654): delete from the source
island, rewrite the island id, insert into the target island map and
grid. -/
def moveProgram (islands : List Island) (srcIdx tgtIdx : Nat) (p : Program) :
    List Island :=
  let src := islands.getD srcIdx Island.default
  let src := { src with programs := aerase src.programs p.id }
  let islands := islands.set srcIdx src
  let tgt := islands.getD tgtIdx Island.default
  let p := { p with islandID := (tgt.id : Int) }
  let tgt := { tgt with programs := ainsert tgt.programs p.id p }
  let tgt := (AddToGrid tgt p).1
  islands.set tgtIdx tgt

/-- Number of candidates migrated from one island
(database.go:639-642): the floor of `len(candidates) * rate` as a Go
int conversion, bumped to 1 when it falls below 1 and candidates
exist; the move loop is bounded by the candidate count, hence the
final `toNat` truncation of a possibly negative int. -/
def migrateCount (rate : ℚ) (ncand : Nat) : Nat :=
  let toMigrate : Int := qtrunc ((ncand : ℚ) * rate)
  let toMigrate : Int := if toMigrate < 1 ∧ 0 < ncand then 1 else toMigrate
  toMigrate.toNat

/-- Body of the migration loop for one source island
(database.go:627-657).  `migrated` is the running count over the whole
call; note that the source island's lifetime counter is incremented by
this running count, exactly as database.go:656 does.  Go iterates the
candidate map in unspecified order; the model takes them in list
order, and every property proved below is insensitive to the order. -/
def migrateIsland (rate : ℚ) (islands : List Island) (i migrated : Nat) :
    List Island × Nat :=
  let island := islands.getD i Island.default
  let tgtIdx := (i + 1) % islands.length
  let candidates := (island.programs.filter
    (fun kv => ERat.ltB (island.bestScore.scaleBy 0.8) (.fin kv.2.score))).map (·.2)
  let moved := candidates.take (migrateCount rate candidates.length)
  let islands := moved.foldl (fun isls p => moveProgram isls i tgtIdx p) islands
  let migrated := migrated + moved.length
  let island := islands.getD i Island.default
  (islands.set i { island with migrated := island.migrated + migrated }, migrated)

/-- MigratePrograms (database.go:616-664).  The method always returns
a nil error; with fewer than two islands it is a no-op. -/
def MigratePrograms (db : ProgramDatabase) : ProgramDatabase :=
  if db.islands.length < 2 then db
  else
    let state := (List.range db.islands.length).foldl
      (fun acc i => migrateIsland db.config.migrationRate acc.1 i acc.2)
      (db.islands, 0)
    { db with islands := state.1,
              lastMigrationGeneration := (state.1.getD 0 Island.default).generation }

/-! ## Score parsing (worker.go cascade blob and evaluator.go) -/

/-- Digits to a natural number. -/
def natOfDigits (cs : List Char) : Nat :=
  cs.foldl (fun acc c => acc * 10 + (c.toNat - 48)) 0

/-- Model of `fmt.Sscanf(s, "%f", &score)`: skip leading blanks, then
an optional sign and a decimal number with an optional fractional
part.  Exponent notation is not modelled; no theorem below feeds an
exponent to the parser. -/
def parseFloatQ (s : String) : Option ℚ :=
  let cs := s.data.dropWhile (fun c => c = ' ' ∨ c = '\t')
  let signed : ℚ × List Char :=
    match cs with
    | '-' :: rest => (-1, rest)
    | '+' :: rest => (1, rest)
    | _ => (1, cs)
  let intPart := signed.2.takeWhile Char.isDigit
  let afterInt := signed.2.dropWhile Char.isDigit
  let fracPart : List Char :=
    match afterInt with
    | '.' :: rest => rest.takeWhile Char.isDigit
    | _ => []
  if intPart.isEmpty ∧ fracPart.isEmpty then none
  else
    some (signed.1 * ((natOfDigits intPart : ℚ) +
      (natOfDigits fracPart : ℚ) / ((10 ^ fracPart.length : ℕ) : ℚ)))

/-- CascadeEvaluator.parseScoreOutput (worker.go blob 552-574).  The
code builds `lines := []string{output}`: the single inspected line is
the whole output, so only an output that itself begins with the
`SCORE: ` marker matches; everything else yields the sentinel. -/
def cascadeParseScore (output : String) : ℚ :=
  if 7 < output.data.length ∧ output.data.take 7 = ("SCORE: ").data then
    match parseFloatQ (String.mk (output.data.drop 7)) with
    | some q => q
    | none => -1.0
  else -1.0

/-- WorkerPool.parseScoreOutput (evaluator.go:366-395).  The
`encoding/json` attempt is external input to the model: `jsonScore`
is `some s` exactly when the output unmarshals as JSON carrying a
float `score` field.  As in the cascade variant the whole output is
the single inspected line; this variant additionally accepts an output
that begins with a bare float. -/
def wpParseScore (jsonScore : Option ℚ) (output : String) : ℚ :=
  match jsonScore with
  | some s => s
  | none =>
      let markerResult : Option ℚ :=
        if 7 < output.data.length ∧ output.data.take 7 = ("SCORE: ").data then
          parseFloatQ (String.mk (output.data.drop 7))
        else none
      match markerResult with
      | some q => q
      | none =>
          match parseFloatQ output with
          | some q => q
          | none => -1.0

/-! ## Cascade evaluator (worker.go blob 388-549) -/

/-- Cascade stage configuration; the timeout duration is omitted (a
timeout enters the model as a `StageExec.timeout` outcome). -/
structure CascadeStage : Type where
  name : String
  threshold : ℚ
  critical : Bool
deriving Repr, DecidableEq

/-- types.EvaluationResult, without the wall-clock duration. -/
structure EvaluationResult : Type where
  id : String
  success : Bool
  score : ℚ
  error : String
  artifacts : List (String × String)
deriving Repr, DecidableEq

/-- Outcome of running one external stage process: the child either
hits the stage deadline, exits non-zero, or completes with combined
output. -/
inductive StageExec : Type where
  | timeout : StageExec
  | execErr : String → String → StageExec
  | ok : String → StageExec
deriving Repr, DecidableEq

/-- runStage (worker.go blob 490-549).  Error messages keep the shape
of the Go messages without the formatted duration and score values;
the `timeout_duration` artifact value (a formatted duration) is
modelled as the empty string. -/
def runStage (stage : CascadeStage) (stageNumber : Nat) (exec : StageExec) :
    EvaluationResult × Option String :=
  let result : EvaluationResult :=
    { id := "stage" ++ toString stageNumber ++ "-" ++ stage.name,
      success := false, score := 0, error := "", artifacts := [] }
  match exec with
  | .timeout =>
      ({ result with
          error := "Stage " ++ stage.name ++ " timed out",
          artifacts := ainsert (ainsert result.artifacts "timeout" "true")
            "timeout_duration" "" },
       some ("stage " ++ stage.name ++ " timed out"))
  | .execErr output errMsg =>
      ({ result with
          error := "Stage " ++ stage.name ++ " execution failed: " ++ errMsg,
          artifacts := ainsert (ainsert result.artifacts "stderr" output)
            "error" errMsg },
       some ("stage execution failed: " ++ errMsg))
  | .ok output =>
      let score := cascadeParseScore output
      ({ result with
          score := score,
          success := decide (0 ≤ score),
          artifacts := ainsert result.artifacts "stdout" output },
       none)

/-- Merge one stage's artifacts into the accumulated result
(worker.go blob 479-481). -/
def mergeArtifacts (acc stage : List (String × String)) : List (String × String) :=
  stage.foldl (fun a kv => ainsert a kv.1 kv.2) acc

/-- Stage loop of CascadeEvaluator.Evaluate (worker.go blob 438-482),
indexed so that stage numbers run 1..K. -/
def cascadeEvalLoop (exec : Nat → StageExec) :
    List CascadeStage → Nat → EvaluationResult → EvaluationResult × Option String
  | [], _, result => ({ result with success := true }, none)
  | stage :: rest, idx, result =>
      let stageOut := runStage stage (idx + 1) (exec idx)
      match stageOut.2 with
      | some e =>
          ({ result with
              error := e,
              artifacts := ainsert (ainsert result.artifacts "failure_stage" stage.name)
                "stage_error" e },
           some e)
      | none =>
          let stageResult := stageOut.1
          if stageResult.score < stage.threshold then
            let result :=
              { result with
                  success := false,
                  score := stageResult.score,
                  error := "Stage " ++ stage.name ++ " failed threshold",
                  artifacts := ainsert (ainsert result.artifacts "failure_stage" stage.name)
                    "threshold_failed" "true" }
            if stage.critical then
              (result, some ("critical stage " ++ stage.name ++ " failed threshold"))
            else
              let result :=
                if result.score < stageResult.score then
                  { result with score := stageResult.score }
                else result
              let result :=
                { result with artifacts := mergeArtifacts result.artifacts stageResult.artifacts }
              cascadeEvalLoop exec rest (idx + 1) result
          else
            let result :=
              if result.score < stageResult.score then
                { result with score := stageResult.score }
              else result
            let result :=
              { result with artifacts := mergeArtifacts result.artifacts stageResult.artifacts }
            cascadeEvalLoop exec rest (idx + 1) result

/-- CascadeEvaluator.Evaluate (worker.go blob 425-487).  The result id
embeds a wall-clock value in Go and is modelled as the constant
"cascade"; `exec` supplies the outcome of each external stage run. -/
def CascadeEvaluate (stages : List CascadeStage) (exec : Nat → StageExec) :
    EvaluationResult × Option String :=
  cascadeEvalLoop exec stages 0
    { id := "cascade", success := false, score := 0, error := "", artifacts := [] }

/-! ## Reasoning-model detection (openai.go) -/

/-- ASCII lower-casing of one character; the Go code applies the
Unicode `strings.ToLower`, which agrees with this on ASCII input, and
every model name in the theorems below is ASCII. -/
def asciiLower (c : Char) : Char :=
  if 'A' ≤ c ∧ c ≤ 'Z' then Char.ofNat (c.toNat + 32) else c

/-- strings.ToLower restricted to ASCII. -/
def strLower (s : String) : String :=
  String.mk (s.data.map asciiLower)

/-- strings.HasPrefix on character lists. -/
def listBegins : List Char → List Char → Bool
  | _, [] => true
  | [], _ :: _ => false
  | c :: cs, p :: ps => c == p && listBegins cs ps

/-- strings.HasPrefix. -/
def strBegins (s pre : String) : Bool :=
  listBegins s.data pre.data

/-- strings.Contains on character lists. -/
def listHas : List Char → List Char → Bool
  | [], needle => needle.isEmpty
  | c :: rest, needle => listBegins (c :: rest) needle || listHas rest needle

/-- strings.Contains. -/
def strHas (s sub : String) : Bool :=
  listHas s.data sub.data

/-- getOrDefault (openai.go:269-274). -/
def getOrDefault (value defaultValue : String) : String :=
  if value = "" then defaultValue else value

/-- The fields of `types.LLMModelConfig` read by the embedded code. -/
structure LLMModelConfig : Type where
  name : String
  apiBase : String
deriving Repr, DecidableEq

/-- The fields of OpenAIClient read by isReasoningModel. -/
structure OpenAIClient : Type where
  name : String
  baseURL : String
deriving Repr, DecidableEq

/-- NewOpenAIClient (openai.go:25-39), restricted to the fields that
isReasoningModel reads: the base URL defaults to the official OpenAI
endpoint when the configured one is empty. -/
def NewOpenAIClient (config : LLMModelConfig) : OpenAIClient :=
  { name := config.name,
    baseURL := getOrDefault config.apiBase "https://api.openai.com/v1" }

/-- The prefix list of openai.go:212-222, in source order. -/
def reasoningModelNames : List String :=
  ["o1-", "o1", "o3-", "o3", "o4-", "gpt-5-", "gpt-5", "gpt-oss-120b", "gpt-oss-20b"]

/-- isReasoningModel (openai.go:210-235). -/
def isReasoningModel (c : OpenAIClient) : Bool :=
  let model := strLower c.name
  if reasoningModelNames.any (fun p => strBegins model p) then true
  else
    let apiBase := strLower c.baseURL
    let isOfficialAPI := strHas apiBase "api.openai.com"
    isOfficialAPI &&
      (strBegins model "o1" || strBegins model "o3" || strBegins model "o4")

/-- Reasoning-model detection as the claim words it: the name begins,
case-insensitively, with one of the nine listed prefixes.  This is the
comparison point for claim C9, not a translation of the source. -/
def specReasoningName (name : String) : Bool :=
  ["o1", "o1-", "o3", "o3-", "o4-", "gpt-5", "gpt-5-", "gpt-oss-120b",
    "gpt-oss-20b"].any (fun p => strBegins (strLower name) p)

/-! ## Derived notions used by the theorems -/

/-- Clamping to the unit interval, as the spec words it. -/
def clamp01 (q : ℚ) : ℚ :=
  if q < 0 then 0 else if q > 1 then 1 else q

/-- Fold of AddProgram over a list of programs (each without an
explicit UUID, as in the round-robin test scenario). -/
def addAll (db : ProgramDatabase) (ps : List Program) : ProgramDatabase :=
  ps.foldl (fun d p => AddProgram d "" p) db

/-- All program ids resident on some island, island by island. -/
def islandKeys (islands : List Island) : List String :=
  (islands.map (fun isl => akeys isl.programs)).flatten

/-- The same ids as a multiset; migration permutes this multiset. -/
def keysMS (islands : List Island) : Multiset String :=
  (islandKeys islands : Multiset String)

/-- Total population over the islands' program maps. -/
def storePopulation (islands : List Island) : Nat :=
  (islands.map (fun isl => isl.programs.length)).sum

/-- Well-formedness of the island family: every program id is resident
on exactly one island (Go maps have unique keys and an id is stored on
a single island), and each map binds an id to the program carrying
it. -/
def StoreWF (islands : List Island) : Prop :=
  (islandKeys islands).Nodup ∧
  ∀ isl ∈ islands, ∀ kv ∈ isl.programs, kv.1 = kv.2.id

instance : DecidableEq (Except String (List Program)) := fun a b =>
  match a, b with
  | .error e, .error f =>
      if h : e = f then .isTrue (by rw [h]) else .isFalse (by simp [h])
  | .ok x, .ok y =>
      if h : x = y then .isTrue (by rw [h]) else .isFalse (by simp [h])
  | .error _, .ok _ => .isFalse (by simp)
  | .ok _, .error _ => .isFalse (by simp)

/-! ## Concrete fixtures

The states below mirror the repository's own test data
(database_test.go) and the spec's end-to-end scenarios; each claim's
witness and counterexample uses its own fixtures. -/

/-- The 5x5 grid configuration of TestIslandAddToGrid. -/
def gridCfg55 : DatabaseConfig :=
  { numIslands := 1,
    gridDimensions := ["complexity", "diversity"],
    gridResolution := [("complexity", 5), ("diversity", 5)],
    gridBounds := [("complexity", (0, 1)), ("diversity", (0, 1))],
    migrationInterval := 10, migrationRate := 0.1 }

/-- Island used by the C1 witness. -/
def c1Island : Island := NewIsland 0 gridCfg55

/-- Program `a` of the cell-replacement scenario. -/
def c1ProgA : Program :=
  { id := "a", code := "func test() {}", score := 0.8, fitness := 0.8,
    features := [0.3, 0.7], generation := 0, islandID := 0 }

/-- Program `b` of the cell-replacement scenario. -/
def c1ProgB : Program :=
  { id := "b", code := "func test2() {}", score := 0.9, fitness := 0.9,
    features := [0.3, 0.7], generation := 0, islandID := 0 }

/-- Island used by the C6 counterexample (two dimensions). -/
def c6Island : Island := NewIsland 0 gridCfg55

/-- Bounds of TestIslandScaleFeatures: complexity over [0,10],
diversity over [-5,5]. -/
def c7Cfg : DatabaseConfig :=
  { numIslands := 1,
    gridDimensions := ["complexity", "diversity"],
    gridResolution := [("complexity", 10), ("diversity", 10)],
    gridBounds := [("complexity", (0, 10)), ("diversity", (-5, 5))],
    migrationInterval := 10, migrationRate := 0.1 }

/-- Island of the scale-features scenario after observing the feature
vectors [2,-2] and [8,2]. -/
def c7Island : Island :=
  updateFeatureStats
    (updateFeatureStats (NewIsland 0 c7Cfg)
      { Program.default with features := [2, -2] })
    { Program.default with features := [8, 2] }

/-- Cascade stages of the spec's threshold scenario. -/
def c3Stages : List CascadeStage :=
  [ { name := "validation", threshold := 0.0, critical := true },
    { name := "basic", threshold := 0.5, critical := false },
    { name := "comprehensive", threshold := 0.8, critical := false } ]

/-- Stage outcomes emitting the scores 0.5, 0.4, 0.9. -/
def c3Exec : Nat → StageExec := fun i =>
  match i with
  | 0 => .ok "SCORE: 0.5"
  | 1 => .ok "SCORE: 0.4"
  | _ => .ok "SCORE: 0.9"

/-- Two non-critical stages whose evaluator emits 0.8 then 0.3; the
second fails its 0.9 threshold and overwrites the running score. -/
def c3StagesB : List CascadeStage :=
  [ { name := "first", threshold := 0.0, critical := false },
    { name := "second", threshold := 0.9, critical := false } ]

/-- Stage outcomes emitting the scores 0.8 then 0.3. -/
def c3ExecB : Nat → StageExec := fun i =>
  match i with
  | 0 => .ok "SCORE: 0.8"
  | _ => .ok "SCORE: 0.3"

/-- Two-island single-dimension configuration with migration rate
0.5. -/
def c5Cfg : DatabaseConfig :=
  { numIslands := 2,
    gridDimensions := ["complexity"],
    gridResolution := [("complexity", 5)],
    gridBounds := [("complexity", (0, 1))],
    migrationInterval := 1, migrationRate := 0.5 }

/-- Program resident on island 0 before migration. -/
def c5ProgA : Program :=
  { id := "a", code := "", score := 1, fitness := 1, features := [0.5],
    generation := 0, islandID := 0 }

/-- Program resident on island 1 before migration. -/
def c5ProgB : Program :=
  { id := "b", code := "", score := 1, fitness := 1, features := [0.5],
    generation := 0, islandID := 1 }

/-- Store holding one program per island, built through AddProgram. -/
def c5Db : ProgramDatabase :=
  AddProgram (AddProgram (New c5Cfg) "" c5ProgA) "" c5ProgB

/-- Three-island store with four programs per island (scores 0, 0.1,
0.2, 0.3), the migration-conservation scenario of
TestProgramDatabase_Migration. -/
def c2Cfg : DatabaseConfig :=
  { numIslands := 3,
    gridDimensions := ["complexity"],
    gridResolution := [("complexity", 5)],
    gridBounds := [("complexity", (0, 1))],
    migrationInterval := 1, migrationRate := 0.5 }

/-- One program of the conservation scenario. -/
def c2Prog (i j : Nat) : Program :=
  { id := "island" ++ toString i ++ "_prog" ++ toString j,
    code := "", score := (j : ℚ) * 0.1, fitness := 0,
    features := [(j : ℚ) * 0.1], generation := 0, islandID := (i : Int) }

/-- The conservation-scenario store. -/
def c2Db : ProgramDatabase :=
  addAll (New c2Cfg)
    ((List.range 3).flatMap (fun i => (List.range 4).map (fun j => c2Prog i j)))

/-- Two-island configuration without grid dimensions, as in
TestProgramDatabase_AddProgram. -/
def c4Cfg : DatabaseConfig :=
  { numIslands := 2, gridDimensions := [], gridResolution := [],
    gridBounds := [], migrationInterval := 10, migrationRate := 0.1 }

/-- A program whose `IslandID` field was never set: it carries the Go
zero value 0 of `types.Program.IslandID` (config.go:515), which is a
valid index into a non-empty island list. -/
def c4ProgZ (n : Nat) : Program :=
  { id := "p" ++ toString n, code := "", score := (n : ℚ) * 0.1,
    fitness := 0, features := [], generation := 0, islandID := 0 }

/-- The insertion scenario store: three programs with the zero-value
island assignment added to a fresh two-island store. -/
def c4Db : ProgramDatabase :=
  addAll (New c4Cfg) [c4ProgZ 1, c4ProgZ 2, c4ProgZ 3]

/-- A program carrying the out-of-range island assignment -1, which
AddProgram routes to the cursor island. -/
def c10Prog (n : Nat) : Program :=
  { id := "p" ++ toString n, code := "", score := (n : ℚ) * 0.1,
    fitness := 0, features := [], generation := 0, islandID := -1 }

/-- Store with a single program, used to exhibit duplicate samples. -/
def c10Db : ProgramDatabase :=
  AddProgram (New c4Cfg) "" (c10Prog 1)

/-! ## Lemmas about the map model -/

@[simp] theorem alookup_nil {α : Type} (k : String) :
    alookup ([] : List (String × α)) k = none := rfl

@[simp] theorem alookup_cons {α : Type} (k₀ : String) (v₀ : α) (rest : List (String × α))
    (k : String) :
    alookup ((k₀, v₀) :: rest) k = if k₀ = k then some v₀ else alookup rest k := rfl

@[simp] theorem akeys_nil {α : Type} : akeys ([] : List (String × α)) = [] := rfl

@[simp] theorem akeys_cons {α : Type} (kv : String × α) (rest : List (String × α)) :
    akeys (kv :: rest) = kv.1 :: akeys rest := rfl

/-- Inserting a key that is absent appends, so the length grows by one. -/
theorem ainsert_length_of_not_mem {α : Type} (m : List (String × α)) (k : String) (v : α)
    (h : k ∉ akeys m) : (ainsert m k v).length = m.length + 1 := by
  induction m with
  | nil => rfl
  | cons kv rest ih =>
      obtain ⟨k₀, v₀⟩ := kv
      simp only [akeys_cons, List.mem_cons] at h
      push_neg at h
      simp only [ainsert, if_neg (Ne.symm h.1), List.length_cons]
      rw [ih h.2]

/-- Erasing a key that occurs exactly once shrinks the length by one. -/
theorem aerase_length_of_nodup_mem {α : Type} (m : List (String × α)) (k : String)
    (hnd : (akeys m).Nodup) (h : k ∈ akeys m) :
    (aerase m k).length + 1 = m.length := by
  induction m with
  | nil => simp [akeys] at h
  | cons kv rest ih =>
      obtain ⟨k₀, v₀⟩ := kv
      simp only [akeys_cons, List.nodup_cons] at hnd
      simp only [akeys_cons, List.mem_cons] at h
      by_cases hk : k₀ = k
      · subst hk
        have : aerase ((k₀, v₀) :: rest) k₀ = rest := by
          simp only [aerase, List.filter_cons, decide_eq_true_eq]
          rw [if_neg (by simp)]
          have : ∀ kv ∈ rest, kv.1 ≠ k₀ := by
            intro kv hkv h0
            exact hnd.1 (h0 ▸ List.mem_map_of_mem (·.1) hkv)
          exact List.filter_eq_self.mpr (fun kv hkv => by
            simpa using this kv hkv)
        rw [this, List.length_cons]
      · have hkr : k ∈ akeys rest := h.resolve_left (fun h0 => hk h0.symm)
        have : aerase ((k₀, v₀) :: rest) k = (k₀, v₀) :: aerase rest k := by
          simp [aerase, List.filter_cons, hk]
        rw [this, List.length_cons, List.length_cons, ih hnd.2 hkr]

/-- Erasing a key removes it from the key list (set-wise). -/
theorem mem_akeys_aerase {α : Type} (m : List (String × α)) (k k₁ : String) :
    k₁ ∈ akeys (aerase m k) ↔ k₁ ∈ akeys m ∧ k₁ ≠ k := by
  induction m with
  | nil => simp [aerase, akeys]
  | cons kv rest ih =>
      obtain ⟨k₀, v₀⟩ := kv
      by_cases hk : k₀ = k
      · subst hk
        simp only [aerase, List.filter_cons]
        rw [if_neg (by simp)]
        rw [show List.filter (fun kv => decide (kv.1 ≠ k₀)) rest = aerase rest k₀ from rfl]
        simp only [akeys_cons, List.mem_cons, ih]
        constructor
        · rintro ⟨h1, h2⟩; exact ⟨Or.inr h1, h2⟩
        · rintro ⟨h1 | h1, h2⟩
          · exact absurd h1 h2
          · exact ⟨h1, h2⟩
      · simp only [aerase, List.filter_cons]
        rw [if_pos (by simpa using hk)]
        rw [show List.filter (fun kv => decide (kv.1 ≠ k)) rest = aerase rest k from rfl]
        simp only [akeys_cons, List.mem_cons, ih]
        constructor
        · rintro (h1 | ⟨h1, h2⟩)
          · exact ⟨Or.inl h1, fun h0 => hk (h1 ▸ h0 ▸ rfl)⟩
          · exact ⟨Or.inr h1, h2⟩
        · rintro ⟨h1 | h1, h2⟩
          · exact Or.inl h1
          · exact Or.inr ⟨h1, h2⟩

/-- Erasing preserves key distinctness. -/
theorem aerase_nodup {α : Type} (m : List (String × α)) (k : String)
    (hnd : (akeys m).Nodup) : (akeys (aerase m k)).Nodup := by
  induction m with
  | nil => simp [aerase, akeys]
  | cons kv rest ih =>
      obtain ⟨k₀, v₀⟩ := kv
      simp only [akeys_cons, List.nodup_cons] at hnd
      by_cases hk : k₀ = k
      · subst hk
        simpa [aerase, List.filter_cons] using ih hnd.2
      · have : aerase ((k₀, v₀) :: rest) k = (k₀, v₀) :: aerase rest k := by
          simp [aerase, List.filter_cons, hk]
        rw [this]
        refine List.nodup_cons.mpr ⟨?_, ih hnd.2⟩
        intro hmem
        exact hnd.1 ((mem_akeys_aerase rest k k₀).mp hmem).1

/-- Inserting an absent key appends it to the key list. -/
theorem akeys_ainsert_of_not_mem {α : Type} (m : List (String × α)) (k : String) (v : α)
    (h : k ∉ akeys m) : akeys (ainsert m k v) = akeys m ++ [k] := by
  induction m with
  | nil => rfl
  | cons kv rest ih =>
      obtain ⟨k₀, v₀⟩ := kv
      simp only [akeys_cons, List.mem_cons] at h
      push_neg at h
      simp only [ainsert, if_neg (Ne.symm h.1), akeys_cons, List.cons_append,
        List.cons.injEq, true_and]
      exact ih h.2

/-- Inserting under a key makes it present. -/
theorem mem_akeys_ainsert_self {α : Type} (m : List (String × α)) (k : String) (v : α) :
    k ∈ akeys (ainsert m k v) := by
  induction m with
  | nil => simp [ainsert, akeys]
  | cons kv rest ih =>
      obtain ⟨k₀, v₀⟩ := kv
      by_cases hk : k₀ = k
      · simp [ainsert, hk]
      · simp only [ainsert, if_neg hk, akeys_cons, List.mem_cons]
        exact Or.inr ih

/-- Lookup after inserting the same key. -/
theorem alookup_ainsert_self {α : Type} (m : List (String × α)) (k : String) (v : α) :
    alookup (ainsert m k v) k = some v := by
  induction m with
  | nil => simp [ainsert, alookup]
  | cons kv rest ih =>
      obtain ⟨k₀, v₀⟩ := kv
      by_cases hk : k₀ = k
      · simp [ainsert, hk, alookup]
      · simp [ainsert, hk, alookup, ih]

/-- Lookup after inserting a different key. -/
theorem alookup_ainsert_ne {α : Type} (m : List (String × α)) (k k₁ : String) (v : α)
    (h : k ≠ k₁) : alookup (ainsert m k v) k₁ = alookup m k₁ := by
  induction m with
  | nil => simp [ainsert, alookup, h]
  | cons kv rest ih =>
      obtain ⟨k₀, v₀⟩ := kv
      by_cases hk : k₀ = k
      · subst hk
        simp [ainsert, alookup, h]
      · simp [ainsert, hk, alookup, ih]

/-- Inserting a pair that satisfies a key-value predicate preserves
the predicate over the whole map. -/
theorem ainsert_forall {α : Type} (P : String × α → Prop) (m : List (String × α))
    (k : String) (v : α) (hall : ∀ kv ∈ m, P kv) (hkv : P (k, v)) :
    ∀ kv ∈ ainsert m k v, P kv := by
  induction m with
  | nil => simpa [ainsert] using hkv
  | cons kv₀ rest ih =>
      obtain ⟨k₀, v₀⟩ := kv₀
      by_cases hk : k₀ = k
      · subst hk
        simp only [ainsert, if_pos rfl]
        intro kv hkv'
        rcases List.mem_cons.mp hkv' with h | h
        · exact h ▸ hkv
        · exact hall kv (List.mem_cons_of_mem _ h)
      · simp only [ainsert, if_neg hk]
        intro kv hkv'
        rcases List.mem_cons.mp hkv' with h | h
        · exact hall kv (h ▸ List.mem_cons_self _ _)
        · exact ih (fun kv h' => hall kv (List.mem_cons_of_mem _ h')) kv h

/-- Erasure keeps a key-value predicate. -/
theorem aerase_forall {α : Type} (P : String × α → Prop) (m : List (String × α))
    (k : String) (hall : ∀ kv ∈ m, P kv) :
    ∀ kv ∈ aerase m k, P kv :=
  fun kv h => hall kv (List.mem_of_mem_filter h)

/-! ## Claim C3: cascade threshold scenario -/

/-- C3 counterexample: with stages validation(0.0, critical),
basic(0.5, non-critical), comprehensive(0.8, non-critical) and parsed
scores 0.5, 0.4, 0.9, the claim asserts that no `failure_stage` key is
present in the artifacts; the code records `failure_stage = "basic"`
when the non-critical basic stage misses its threshold and never
removes it. -/
theorem cascadeEvaluate_failure_stage_counterexample :
    alookup (CascadeEvaluate c3Stages c3Exec).1.artifacts "failure_stage" =
      some "basic" := by decide

/-- C3 amended: the scenario returns success with final score 0.9 and
a nil error, the comprehensive stage still runs after the non-critical
basic stage fails (its stdout is merged and its 0.9 becomes the final
score), but the artifacts keep `failure_stage = "basic"` and
`threshold_failed = "true"`; moreover the aggregated score is the
running maximum only over the stages after the last threshold failure:
a threshold-failing stage first overwrites the running score with its
own (accepted 0.8 followed by a failing 0.3 yields 0.3). -/
theorem cascadeEvaluate_scenario_amended :
    (CascadeEvaluate c3Stages c3Exec).1.success = true ∧
    (CascadeEvaluate c3Stages c3Exec).1.score = 0.9 ∧
    (CascadeEvaluate c3Stages c3Exec).2 = none ∧
    alookup (CascadeEvaluate c3Stages c3Exec).1.artifacts "failure_stage" =
      some "basic" ∧
    alookup (CascadeEvaluate c3Stages c3Exec).1.artifacts "threshold_failed" =
      some "true" ∧
    alookup (CascadeEvaluate c3Stages c3Exec).1.artifacts "stdout" =
      some "SCORE: 0.9" ∧
    (CascadeEvaluate c3StagesB c3ExecB).1.score = 0.3 ∧
    (CascadeEvaluate c3StagesB c3ExecB).1.success = true := by decide

/-! ## Claim C5: migration counter -/

/-- C5: the claim says each island's lifetime `Migrated` counter grows
by exactly the number of programs moved out of that island.  In the
two-island store below, island 1 holds exactly program `b` before
migration and exactly program `a` after it — precisely one program
left island 1 — yet its counter reads 2, because database.go:656 adds
the running global count (`island.Migrated += migrated`) instead of a
per-island count.  Island 0, processed first, happens to receive the
correct value 1. -/
theorem migratePrograms_counter_inflation :
    akeys ((c5Db.islands.getD 0 Island.default).programs) = ["a"] ∧
    akeys ((c5Db.islands.getD 1 Island.default).programs) = ["b"] ∧
    akeys (((MigratePrograms c5Db).islands.getD 0 Island.default).programs) =
      ["b"] ∧
    akeys (((MigratePrograms c5Db).islands.getD 1 Island.default).programs) =
      ["a"] ∧
    ((MigratePrograms c5Db).islands.getD 0 Island.default).migrated = 1 ∧
    ((MigratePrograms c5Db).islands.getD 1 Island.default).migrated = 2 := by
  decide

/-! ## Claim C6: cell key on arity mismatch -/

/-- C6 counterexample: on the 5x5 two-dimension grid, the claim makes
the one-feature vector [0.3] yield the partial key over the first
dimension, and distinct mismatched vectors distinct keys when their
truncated prefixes differ; the code instead returns the empty string
for every mismatched vector (island.go:186-188). -/
theorem calculateCellKey_mismatch_counterexample :
    calculateCellKey c6Island [0.3] = "" ∧
    specCellKey c6Island [0.3] = "complexity:1;" ∧
    calculateCellKey c6Island [0.9, 0.1, 0.4] = "" ∧
    specCellKey c6Island [0.9, 0.1, 0.4] = "complexity:3;diversity:0;" := by
  decide

/-- C6 amended: a feature vector whose arity differs from the
dimension count is mapped to the single degenerate key "" (the guard
of island.go:186 fires before the per-dimension loop), and a vector of
matching arity gets the deterministic per-dimension key, which then
coincides with the spec's min-length computation. -/
theorem calculateCellKey_arity_amended (i : Island) (features : List ℚ) :
    (features.length ≠ i.grid.dimensions.length →
      calculateCellKey i features = "") ∧
    (features.length = i.grid.dimensions.length →
      calculateCellKey i features = specCellKey i features) := by
  constructor
  · intro h
    simp [calculateCellKey, h]
  · intro h
    simp [calculateCellKey, specCellKey, h]

/-- C6 amended witness at the concrete island. -/
theorem calculateCellKey_arity_amended_witness :
    calculateCellKey c6Island [0.7] = "" ∧
    calculateCellKey c6Island [0.7, 0.7] = specCellKey c6Island [0.7, 0.7] :=
  ⟨(calculateCellKey_arity_amended c6Island [0.7]).1 (by decide),
   (calculateCellKey_arity_amended c6Island [0.7, 0.7]).2 (by decide)⟩

/-! ## Claim C9: reasoning-model detection -/

/-- C9 counterexample: the claim states an if-and-only-if against the
nine listed prefixes.  A client named "o4mini" with the default API
base is classified as a reasoning model by the official-API fallback
of openai.go:230-234 (bare `o4`, no dash), although its name begins
with none of the listed prefixes. -/
theorem isReasoningModel_counterexample :
    isReasoningModel (NewOpenAIClient { name := "o4mini", apiBase := "" }) =
      true ∧
    specReasoningName "o4mini" = false := by decide

/-- C9 amended: the prefix-list equivalence holds exactly for clients
whose (defaulted, lower-cased) API base does not contain
"api.openai.com"; against the official API, a name beginning with o1,
o3 or o4 — dash not required — is also classified as reasoning.  The
three named examples hold as claimed. -/
theorem isReasoningModel_amended :
    (∀ name apiBase : String,
      strHas (strLower (getOrDefault apiBase "https://api.openai.com/v1"))
        "api.openai.com" = false →
      isReasoningModel (NewOpenAIClient { name := name, apiBase := apiBase }) =
        specReasoningName name) ∧
    isReasoningModel (NewOpenAIClient { name := "o1-preview", apiBase := "" }) =
      true ∧
    isReasoningModel (NewOpenAIClient { name := "gpt-4", apiBase := "" }) =
      false ∧
    isReasoningModel (NewOpenAIClient { name := "gpt-5", apiBase := "" }) =
      true := by
  refine ⟨?_, by decide, by decide, by decide⟩
  intro name apiBase hbase
  have key : reasoningModelNames.any (fun p => strBegins (strLower name) p) =
      specReasoningName name := by
    apply Bool.eq_iff_iff.mpr
    simp only [List.any_eq_true, reasoningModelNames, specReasoningName,
      List.mem_cons, List.not_mem_nil, or_false]
    constructor
    · rintro ⟨x, hx, h⟩
      exact ⟨x, by tauto, h⟩
    · rintro ⟨x, hx, h⟩
      exact ⟨x, by tauto, h⟩
  show isReasoningModel
      { name := name,
        baseURL := getOrDefault apiBase "https://api.openai.com/v1" } = _
  unfold isReasoningModel
  dsimp only
  rw [hbase]
  simp only [Bool.false_and]
  cases hany : reasoningModelNames.any (fun p => strBegins (strLower name) p) with
  | true => simpa using hany ▸ key.symm
  | false => simpa using hany ▸ key.symm

/-- C9 amended witness at a non-official API base. -/
theorem isReasoningModel_amended_witness :
    isReasoningModel
        (NewOpenAIClient { name := "o1-mini", apiBase := "https://example.com/v1" }) =
      specReasoningName "o1-mini" :=
  isReasoningModel_amended.1 "o1-mini" "https://example.com/v1" (by decide)

/-! ## Claim C8: score parsing -/

/-- C8 counterexample: the claim says a `SCORE:` line that is not the
first line of the output still yields its score (0.5 here).  Both
parsers treat the whole output as one line, so the output
"x\nSCORE: 0.5" yields the sentinel -1 in both implementations. -/
theorem parseScoreOutput_counterexample :
    cascadeParseScore "x\nSCORE: 0.5" = -1 ∧
    wpParseScore none "x\nSCORE: 0.5" = -1 ∧
    (-1 : ℚ) ≠ 0.5 := by decide

/-- C8 amended: neither parser splits the output into lines
(`lines := []string{output}`); the marker is recognized only when the
whole output begins with "SCORE: ", a marker line preceded by any
other line is ignored and the sentinel -1.0 is returned, an empty
output yields -1.0, and the WorkerPool variant (but not the cascade
variant) additionally accepts an output that begins with a bare float
and consults a JSON score field first. -/
theorem parseScoreOutput_single_line_amended :
    (∀ rest : String, cascadeParseScore ("Evaluating\n" ++ rest) = -1) ∧
    (∀ rest : String, wpParseScore none ("Evaluating\n" ++ rest) = -1) ∧
    cascadeParseScore "SCORE: 0.5" = 0.5 ∧
    wpParseScore none "SCORE: 0.5" = 0.5 ∧
    cascadeParseScore "" = -1 ∧
    wpParseScore none "" = -1 ∧
    wpParseScore (some 0.3) "ignored output" = 0.3 ∧
    wpParseScore none "0.85" = 0.85 ∧
    cascadeParseScore "0.85" = -1 := by
  refine ⟨?_, ?_, by decide, by decide, by decide, by decide, by decide,
    by decide, by decide⟩
  · intro rest
    unfold cascadeParseScore
    rw [show ("Evaluating\n" ++ rest).data = "Evaluating\n".data ++ rest.data from rfl]
    rw [List.take_append_of_le_length (by decide)]
    rw [if_neg]
    · norm_num
    · rintro ⟨-, h2⟩
      exact absurd h2 (by decide)
  · intro rest
    unfold wpParseScore
    rw [show ("Evaluating\n" ++ rest).data = "Evaluating\n".data ++ rest.data from rfl]
    rw [List.take_append_of_le_length (by decide)]
    rw [if_neg]
    · rw [show parseFloatQ ("Evaluating\n" ++ rest) = none from rfl]
      norm_num
    · rintro ⟨-, h2⟩
      exact absurd h2 (by decide)

/-! ## Lemmas about the grid operations -/

/-- The cell-key loop reads only the bounds and resolution maps of the
grid. -/
theorem cellKeySegs_congr (g g' : MAPGrid) (h1 : g.bounds = g'.bounds)
    (h2 : g.resolution = g'.resolution) (f : List ℚ) :
    ∀ (n : Nat) (dims : List String),
      cellKeySegs g f n dims = cellKeySegs g' f n dims := by
  intro n dims
  induction dims generalizing n with
  | nil => rfl
  | cons dim rest ih =>
      simp only [cellKeySegs, h1, h2]
      split
      · rfl
      · rw [ih]

/-- The cell key does not depend on the cell map or the filled-cell
counter. -/
theorem calculateCellKey_cells_irrelevant (i : Island)
    (cells' : List (String × Program)) (fc : Nat) (f : List ℚ) :
    calculateCellKey
        { i with grid := { i.grid with cells := cells', filledCells := fc } } f =
      calculateCellKey i f := by
  show (if f.length ≠ i.grid.dimensions.length then ""
        else cellKeySegs { i.grid with cells := cells', filledCells := fc }
          f 0 i.grid.dimensions) =
      (if f.length ≠ i.grid.dimensions.length then ""
        else cellKeySegs i.grid f 0 i.grid.dimensions)
  split
  · rfl
  · exact cellKeySegs_congr { i.grid with cells := cells', filledCells := fc }
      i.grid rfl rfl f 0 i.grid.dimensions

/-- Updating feature statistics leaves the grid untouched. -/
theorem updateFeatureStats_grid (i : Island) (p : Program) :
    (updateFeatureStats i p).grid = i.grid := rfl

/-- AddToGrid on an empty cell: the program is stored, the counter
grows, the statistics are updated, and true is returned. -/
theorem addToGrid_eq_of_none (i : Island) (r : Program)
    (h : alookup i.grid.cells (calculateCellKey i r.features) = none) :
    AddToGrid i r =
      (updateFeatureStats
        { i with grid :=
          { i.grid with
              cells := ainsert i.grid.cells (calculateCellKey i r.features) r,
              filledCells := i.grid.filledCells + 1 } } r, true) := by
  unfold AddToGrid
  dsimp only
  rw [h]

/-- AddToGrid against a strictly weaker occupant: the program replaces
it and true is returned; the counter does not change. -/
theorem addToGrid_eq_of_lt (i : Island) (r ex : Program)
    (h : alookup i.grid.cells (calculateCellKey i r.features) = some ex)
    (hlt : ex.score < r.score) :
    AddToGrid i r =
      (updateFeatureStats
        { i with grid :=
          { i.grid with
              cells := ainsert i.grid.cells (calculateCellKey i r.features) r } } r,
       true) := by
  unfold AddToGrid
  dsimp only
  rw [h]
  simp [hlt]

/-- AddToGrid against an occupant at least as strong: nothing changes
and false is returned. -/
theorem addToGrid_eq_of_ge (i : Island) (r ex : Program)
    (h : alookup i.grid.cells (calculateCellKey i r.features) = some ex)
    (hge : ¬ ex.score < r.score) :
    AddToGrid i r = (i, false) := by
  unfold AddToGrid
  dsimp only
  rw [h]
  simp [hge]

/-! ## Claim C1: grid insertion contract -/

/-- C1: AddToGrid returns true iff the addressed cell is empty or the
new score is strictly greater than the occupant's; a score tie leaves
the island unchanged and returns false; FilledCells grows by one
exactly when the cell was empty; and inserting two programs with the
same cell key into an empty cell, in either order, leaves the
higher-scoring one as the occupant. -/
theorem addToGrid_contract (isl : Island) (p q : Program)
    (hempty : alookup isl.grid.cells (calculateCellKey isl p.features) = none)
    (hkey : calculateCellKey isl q.features = calculateCellKey isl p.features)
    (hneq : p.score ≠ q.score) :
    (∀ (i : Island) (r : Program),
      (AddToGrid i r).2 =
        match alookup i.grid.cells (calculateCellKey i r.features) with
        | none => true
        | some ex => decide (ex.score < r.score)) ∧
    (∀ (i : Island) (r ex : Program),
      alookup i.grid.cells (calculateCellKey i r.features) = some ex →
      r.score = ex.score → AddToGrid i r = (i, false)) ∧
    (∀ (i : Island) (r : Program),
      (AddToGrid i r).1.grid.filledCells =
        i.grid.filledCells +
          if alookup i.grid.cells (calculateCellKey i r.features) = none
          then 1 else 0) ∧
    alookup (AddToGrid (AddToGrid isl p).1 q).1.grid.cells
        (calculateCellKey isl p.features) =
      some (if p.score < q.score then q else p) ∧
    alookup (AddToGrid (AddToGrid isl q).1 p).1.grid.cells
        (calculateCellKey isl p.features) =
      some (if p.score < q.score then q else p) := by
  have hret : ∀ (i : Island) (r : Program),
      (AddToGrid i r).2 =
        match alookup i.grid.cells (calculateCellKey i r.features) with
        | none => true
        | some ex => decide (ex.score < r.score) := by
    intro i r
    cases h : alookup i.grid.cells (calculateCellKey i r.features) with
    | none => rw [addToGrid_eq_of_none i r h]
    | some ex =>
        by_cases hlt : ex.score < r.score
        · rw [addToGrid_eq_of_lt i r ex h hlt]
          simp [hlt]
        · rw [addToGrid_eq_of_ge i r ex h hlt]
          simp [hlt]
  have htie : ∀ (i : Island) (r ex : Program),
      alookup i.grid.cells (calculateCellKey i r.features) = some ex →
      r.score = ex.score → AddToGrid i r = (i, false) := by
    intro i r ex h hsc
    exact addToGrid_eq_of_ge i r ex h (by rw [hsc]; exact lt_irrefl _)
  have hfill : ∀ (i : Island) (r : Program),
      (AddToGrid i r).1.grid.filledCells =
        i.grid.filledCells +
          if alookup i.grid.cells (calculateCellKey i r.features) = none
          then 1 else 0 := by
    intro i r
    cases h : alookup i.grid.cells (calculateCellKey i r.features) with
    | none =>
        rw [addToGrid_eq_of_none i r h]
        simp [updateFeatureStats_grid]
    | some ex =>
        by_cases hlt : ex.score < r.score
        · rw [addToGrid_eq_of_lt i r ex h hlt]
          simp [updateFeatureStats_grid, h]
        · rw [addToGrid_eq_of_ge i r ex h hlt]
          simp [h]
  refine ⟨hret, htie, hfill, ?_, ?_⟩
  · -- insert p first, then q
    rw [addToGrid_eq_of_none isl p hempty]
    have hkeyq : calculateCellKey
        (updateFeatureStats
          { isl with grid :=
            { isl.grid with
                cells := ainsert isl.grid.cells (calculateCellKey isl p.features) p,
                filledCells := isl.grid.filledCells + 1 } } p) q.features =
        calculateCellKey isl p.features := by
      show calculateCellKey
        { isl with grid :=
          { isl.grid with
              cells := ainsert isl.grid.cells (calculateCellKey isl p.features) p,
              filledCells := isl.grid.filledCells + 1 } } q.features = _
      rw [calculateCellKey_cells_irrelevant, hkey]
    have hlook : alookup
        (updateFeatureStats
          { isl with grid :=
            { isl.grid with
                cells := ainsert isl.grid.cells (calculateCellKey isl p.features) p,
                filledCells := isl.grid.filledCells + 1 } } p).grid.cells
        (calculateCellKey
          (updateFeatureStats
            { isl with grid :=
              { isl.grid with
                  cells := ainsert isl.grid.cells (calculateCellKey isl p.features) p,
                  filledCells := isl.grid.filledCells + 1 } } p) q.features) =
        some p := by
      rw [hkeyq]
      exact alookup_ainsert_self _ _ _
    by_cases hpq : p.score < q.score
    · rw [addToGrid_eq_of_lt _ q p hlook hpq]
      rw [if_pos hpq]
      show alookup (ainsert _ _ q) _ = some q
      rw [hkeyq]
      exact alookup_ainsert_self _ _ _
    · rw [addToGrid_eq_of_ge _ q p hlook hpq]
      rw [if_neg hpq]
      show alookup (ainsert isl.grid.cells (calculateCellKey isl p.features) p)
        (calculateCellKey isl p.features) = some p
      exact alookup_ainsert_self _ _ _
  · -- insert q first, then p
    have hemptyq : alookup isl.grid.cells (calculateCellKey isl q.features) = none := by
      rw [hkey]; exact hempty
    rw [addToGrid_eq_of_none isl q hemptyq]
    have hkeyp : calculateCellKey
        (updateFeatureStats
          { isl with grid :=
            { isl.grid with
                cells := ainsert isl.grid.cells (calculateCellKey isl q.features) q,
                filledCells := isl.grid.filledCells + 1 } } q) p.features =
        calculateCellKey isl p.features := by
      show calculateCellKey
        { isl with grid :=
          { isl.grid with
              cells := ainsert isl.grid.cells (calculateCellKey isl q.features) q,
              filledCells := isl.grid.filledCells + 1 } } p.features = _
      rw [calculateCellKey_cells_irrelevant]
    have hlook : alookup
        (updateFeatureStats
          { isl with grid :=
            { isl.grid with
                cells := ainsert isl.grid.cells (calculateCellKey isl q.features) q,
                filledCells := isl.grid.filledCells + 1 } } q).grid.cells
        (calculateCellKey
          (updateFeatureStats
            { isl with grid :=
              { isl.grid with
                  cells := ainsert isl.grid.cells (calculateCellKey isl q.features) q,
                  filledCells := isl.grid.filledCells + 1 } } q) p.features) =
        some q := by
      rw [hkeyp, ← hkey]
      exact alookup_ainsert_self _ _ _
    by_cases hqp : q.score < p.score
    · have hnpq : ¬ p.score < q.score := fun h => absurd (lt_trans h hqp) (lt_irrefl _)
      rw [addToGrid_eq_of_lt _ p q hlook hqp]
      rw [if_neg hnpq]
      show alookup (ainsert _ _ p) _ = some p
      rw [hkeyp]
      exact alookup_ainsert_self _ _ _
    · have hpq : p.score < q.score := by
        rcases lt_or_gt_of_ne hneq with h | h
        · exact h
        · exact absurd h hqp
      rw [addToGrid_eq_of_ge _ p q hlook hqp]
      rw [if_pos hpq]
      show alookup (ainsert isl.grid.cells (calculateCellKey isl q.features) q)
        (calculateCellKey isl p.features) = some q
      rw [← hkey]
      exact alookup_ainsert_self _ _ _

/-- C1 witness on the 5x5 test grid with the cell-replacement programs
a (score 0.8) and b (score 0.9). -/
theorem addToGrid_contract_witness :
    alookup (AddToGrid (AddToGrid c1Island c1ProgA).1 c1ProgB).1.grid.cells
        (calculateCellKey c1Island c1ProgA.features) =
      some (if c1ProgA.score < c1ProgB.score then c1ProgB else c1ProgA) ∧
    alookup (AddToGrid (AddToGrid c1Island c1ProgB).1 c1ProgA).1.grid.cells
        (calculateCellKey c1Island c1ProgA.features) =
      some (if c1ProgA.score < c1ProgB.score then c1ProgB else c1ProgA) :=
  ⟨(addToGrid_contract c1Island c1ProgA c1ProgB (by decide) (by decide)
      (by decide)).2.2.2.1,
   (addToGrid_contract c1Island c1ProgA c1ProgB (by decide) (by decide)
      (by decide)).2.2.2.2⟩

/-! ## Claim C7: feature scaling -/

/-- Positions below the running loop index are never written by the
scale loop. -/
theorem scaleLoop_getD_lt (fs : List (String × FeatureStats)) (features : List ℚ)
    (dims : List String) :
    ∀ (n j : Nat), j < n → ∀ scaled : List ℚ,
      (scaleLoop fs features n dims scaled).getD j 0 = scaled.getD j 0 := by
  induction dims with
  | nil => intro n j _ scaled; rfl
  | cons dim rest ih =>
      intro n j hj scaled
      unfold scaleLoop
      split
      · exact ih (n + 1) j (Nat.lt_succ_of_lt hj) scaled
      · dsimp only
        split
        · rw [ih (n + 1) j (Nat.lt_succ_of_lt hj)]
          simp [List.getD_eq_getElem?_getD, List.getElem?_set_ne (Nat.ne_of_gt hj)]
        · rw [ih (n + 1) j (Nat.lt_succ_of_lt hj)]
          simp [List.getD_eq_getElem?_getD, List.getElem?_set_ne (Nat.ne_of_gt hj)]

/-- Value computed by the scale loop at an in-range position. -/
theorem scaleLoop_getD (fs : List (String × FeatureStats)) (features : List ℚ) :
    ∀ (dims : List String) (n j : Nat) (scaled : List ℚ),
      j < dims.length → n + j < features.length →
      features.length ≤ scaled.length →
      (scaleLoop fs features n dims scaled).getD (n + j) 0 =
        (let feature := features.getD (n + j) 0
         let stats := (alookup fs (dims.getD j "")).getD FeatureStats.zero
         if stats.count = 0 then feature
         else
           let v :=
             if ERat.ltB stats.min stats.max then
               (feature - stats.min.toRat) / (stats.max.toRat - stats.min.toRat)
             else (1 / 2 : ℚ)
           if v < 0 then 0 else if v > 1 then 1 else v) := by
  intro dims
  induction dims with
  | nil => intro n j scaled hj; exact absurd hj (by simp)
  | cons dim rest ih =>
      intro n j scaled hj hfeat hlen
      cases j with
      | zero =>
          have hn : n < features.length := by simpa using hfeat
          have hns : n < scaled.length := lt_of_lt_of_le hn hlen
          unfold scaleLoop
          rw [if_neg (by omega)]
          dsimp only
          simp only [List.getD_cons_zero]
          by_cases hc : ((alookup fs dim).getD FeatureStats.zero).count = 0
          · rw [if_pos hc, if_pos hc,
              scaleLoop_getD_lt fs features rest (n + 1) (n + 0) (by omega)]
            simp [List.getD_eq_getElem?_getD, List.getElem?_set_self, hns]
          · rw [if_neg hc, if_neg hc,
              scaleLoop_getD_lt fs features rest (n + 1) (n + 0) (by omega)]
            simp [List.getD_eq_getElem?_getD, List.getElem?_set_self, hns]
      | succ j' =>
          have heq : n + (j' + 1) = (n + 1) + j' := by omega
          unfold scaleLoop
          have hrec : ∀ scaled' : List ℚ, features.length ≤ scaled'.length →
              (scaleLoop fs features (n + 1) rest scaled').getD (n + (j' + 1)) 0 =
                (let feature := features.getD (n + (j' + 1)) 0
                 let stats := (alookup fs ((dim :: rest).getD (j' + 1) "")).getD
                   FeatureStats.zero
                 if stats.count = 0 then feature
                 else
                   let v :=
                     if ERat.ltB stats.min stats.max then
                       (feature - stats.min.toRat) /
                         (stats.max.toRat - stats.min.toRat)
                     else (1 / 2 : ℚ)
                   if v < 0 then 0 else if v > 1 then 1 else v) := by
            intro scaled' hlen'
            rw [heq]
            have := ih (n + 1) j' scaled' (by simpa using hj) (by omega) hlen'
            simpa only [List.getD_cons_succ] using this
          split
          · exact hrec scaled hlen
          · dsimp only
            split
            · rw [hrec _ (by simpa using hlen)]
            · rw [hrec _ (by simpa using hlen)]

/-- The clamp stays inside the unit interval. -/
theorem clamp01_mem (q : ℚ) : 0 ≤ clamp01 q ∧ clamp01 q ≤ 1 := by
  unfold clamp01
  split
  · norm_num
  · split
    · norm_num
    · constructor <;> linarith [not_lt.mp (by assumption : ¬ q < 0),
        not_lt.mp (by assumption : ¬ q > 1)]

/-- C7: per dimension, ScaleFeatures returns the raw feature when the
dimension has no samples, 0.5 when its observed maximum does not
exceed its minimum, and otherwise the min-max normalized value clamped
to [0, 1].  The statistics are assumed finite when the count is
positive, which is the only reachable shape (island.go initializes
±infinity only at count zero). -/
theorem scaleFeatures_per_dimension (i : Island) (features : List ℚ) (dimIdx : Nat)
    (hdim : dimIdx < i.grid.dimensions.length)
    (hfeat : dimIdx < features.length) :
    (((alookup i.featureStats (i.grid.dimensions.getD dimIdx "")).getD
        FeatureStats.zero).count = 0 →
      (ScaleFeatures i features).getD dimIdx 0 = features.getD dimIdx 0) ∧
    (∀ lo hi : ℚ,
      ((alookup i.featureStats (i.grid.dimensions.getD dimIdx "")).getD
        FeatureStats.zero).count ≠ 0 →
      ((alookup i.featureStats (i.grid.dimensions.getD dimIdx "")).getD
        FeatureStats.zero).min = .fin lo →
      ((alookup i.featureStats (i.grid.dimensions.getD dimIdx "")).getD
        FeatureStats.zero).max = .fin hi →
      ((lo < hi →
          (ScaleFeatures i features).getD dimIdx 0 =
            clamp01 ((features.getD dimIdx 0 - lo) / (hi - lo)) ∧
          0 ≤ (ScaleFeatures i features).getD dimIdx 0 ∧
          (ScaleFeatures i features).getD dimIdx 0 ≤ 1) ∧
       (¬ lo < hi → (ScaleFeatures i features).getD dimIdx 0 = 1 / 2))) := by
  have hmain : (ScaleFeatures i features).getD dimIdx 0 =
      (let feature := features.getD dimIdx 0
       let stats := (alookup i.featureStats (i.grid.dimensions.getD dimIdx "")).getD
         FeatureStats.zero
       if stats.count = 0 then feature
       else
         let v :=
           if ERat.ltB stats.min stats.max then
             (feature - stats.min.toRat) / (stats.max.toRat - stats.min.toRat)
           else (1 / 2 : ℚ)
         if v < 0 then 0 else if v > 1 then 1 else v) := by
    have := scaleLoop_getD i.featureStats features i.grid.dimensions 0 dimIdx
      (List.replicate features.length 0) hdim (by simpa using hfeat)
      (by simp)
    simpa [ScaleFeatures] using this
  constructor
  · intro hcount
    rw [hmain]
    simp only [hcount]
    simp
  · intro lo hi hcount hmin hmax
    rw [hmain]
    simp only [hmin, hmax, if_neg hcount, ERat.toRat, ERat.ltB, decide_eq_true_eq]
    constructor
    · intro hlt
      rw [if_pos hlt]
      exact ⟨rfl, (clamp01_mem _).1, (clamp01_mem _).2⟩
    · intro hge
      rw [if_neg hge]
      norm_num

/-- C7 witness: the TestIslandScaleFeatures scenario.  On the fresh
island the counts are zero and the raw value 5 is returned; after
observing [2,-2] and [8,2] the value 5 scales to (5-2)/(8-2) clamped,
and 0 on the diversity dimension scales to (0-(-2))/(2-(-2)). -/
theorem scaleFeatures_per_dimension_witness :
    (ScaleFeatures (NewIsland 0 c7Cfg) [5, 0]).getD 0 0 = 5 ∧
    (ScaleFeatures c7Island [5, 0]).getD 0 0 = clamp01 ((5 - 2) / (8 - 2)) ∧
    (ScaleFeatures c7Island [5, 0]).getD 1 0 = clamp01 ((0 - -2) / (2 - -2)) :=
  ⟨(scaleFeatures_per_dimension (NewIsland 0 c7Cfg) [5, 0] 0 (by decide)
      (by decide)).1 (by decide),
   (((scaleFeatures_per_dimension c7Island [5, 0] 0 (by decide) (by decide)).2
      2 8 (by decide) (by decide) (by decide)).1 (by decide)).1,
   (((scaleFeatures_per_dimension c7Island [5, 0] 1 (by decide) (by decide)).2
      (-2) 2 (by decide) (by decide) (by decide)).1 (by decide)).1⟩

/-! ## Claim C4: round-robin insertion -/

/-- AddToGrid never touches the island's program map. -/
theorem addToGrid_programs (i : Island) (r : Program) :
    (AddToGrid i r).1.programs = i.programs := by
  cases h : alookup i.grid.cells (calculateCellKey i r.features) with
  | none => rw [addToGrid_eq_of_none i r h]; rfl
  | some ex =>
      by_cases hlt : ex.score < r.score
      · rw [addToGrid_eq_of_lt i r ex h hlt]; rfl
      · rw [addToGrid_eq_of_ge i r ex h hlt]

/-- AddProgram keeps the number of islands. -/
theorem addProgram_islands_length (db : ProgramDatabase) (fid : String) (p : Program) :
    (AddProgram db fid p).islands.length = db.islands.length := by
  unfold AddProgram
  dsimp only
  split_ifs <;> simp

/-- AddProgram advances the round-robin cursor by one modulo the
island count, whatever the program. -/
theorem addProgram_currentIsland (db : ProgramDatabase) (fid : String) (p : Program) :
    (AddProgram db fid p).currentIsland =
      (db.currentIsland + 1) % db.islands.length := by
  unfold AddProgram
  dsimp only
  split_ifs <;> simp

/-- The store built by New has one island per configured island. -/
theorem New_islands_length (cfg : DatabaseConfig) :
    (New cfg).islands.length = cfg.numIslands := by
  simp [New]

/-- Cursor position after a sequence of inserts. -/
theorem addAll_cursor (ps : List Program) :
    ∀ db : ProgramDatabase, db.currentIsland < db.islands.length →
      (addAll db ps).currentIsland =
        (db.currentIsland + ps.length) % db.islands.length ∧
      (addAll db ps).islands.length = db.islands.length := by
  induction ps with
  | nil =>
      intro db h
      exact ⟨(Nat.mod_eq_of_lt (by simpa using h)).symm, rfl⟩
  | cons p rest ih =>
      intro db h
      have hN : 0 < db.islands.length := Nat.lt_of_le_of_lt (Nat.zero_le _) h
      have hstep := addProgram_currentIsland db "" p
      have hlen := addProgram_islands_length db "" p
      have hcur : (AddProgram db "" p).currentIsland <
          (AddProgram db "" p).islands.length := by
        rw [hstep, hlen]
        exact Nat.mod_lt _ hN
      obtain ⟨h1, h2⟩ := ih (AddProgram db "" p) hcur
      have hfold : addAll db (p :: rest) = addAll (AddProgram db "" p) rest := rfl
      constructor
      · rw [hfold, h1, hstep, hlen, Nat.mod_add_mod]
        have harith : db.currentIsland + 1 + rest.length =
            db.currentIsland + (p :: rest).length := by
          simp; omega
        rw [harith]
      · rw [hfold, h2, hlen]

/-- AddProgram stores a program with an out-of-range island assignment
on the cursor island. -/
theorem addProgram_lands_on_cursor (db : ProgramDatabase) (fid : String) (p : Program)
    (hid : p.id ≠ "")
    (hinv : p.islandID < 0 ∨ (db.islands.length : Int) ≤ p.islandID)
    (hcur : db.currentIsland < db.islands.length) :
    p.id ∈ akeys (((AddProgram db fid p).islands.getD db.currentIsland
      Island.default).programs) := by
  have hvalid : ¬ (0 ≤ p.islandID ∧ p.islandID < (db.islands.length : Int)) := by
    rcases hinv with h | h
    · exact fun hc => absurd hc.1 (not_le.mpr h)
    · exact fun hc => absurd hc.2 (not_lt.mpr h)
  unfold AddProgram
  dsimp only
  rw [if_neg hid, if_neg hvalid]
  split <;>
  · simp only [List.getD_eq_getElem?_getD, List.getElem?_set_self, hcur,
      Option.getD_some]
    split <;>
    · rw [addToGrid_programs]
      exact mem_akeys_ainsert_self _ _ _

/-- AddProgram stores a program whose island assignment is a valid
index on that assigned island, ignoring the cursor
(database.go:477-479). -/
theorem addProgram_lands_on_assigned (db : ProgramDatabase) (fid : String) (p : Program)
    (hid : p.id ≠ "")
    (hvalid : 0 ≤ p.islandID ∧ p.islandID < (db.islands.length : Int)) :
    p.id ∈ akeys (((AddProgram db fid p).islands.getD p.islandID.toNat
      Island.default).programs) := by
  have hlt : p.islandID.toNat < db.islands.length := by omega
  unfold AddProgram
  dsimp only
  rw [if_neg hid, if_pos hvalid]
  split <;>
  · simp only [List.getD_eq_getElem?_getD, List.getElem?_set_self, hlt,
      Option.getD_some]
    split <;>
    · rw [addToGrid_programs]
      exact mem_akeys_ainsert_self _ _ _

/-- C4 counterexample: in the two-island store, three programs whose
island id was left at the Go zero value 0 — a valid island index — all
land on island 0, so the assignments read [0, 0, 0] and island 1 stays
empty, refuting the claimed round-robin assignments [0, 1, 0].  The
cursor still ends at 1 = 3 mod 2, because it advances on every insert
whether or not it was consulted. -/
theorem addProgram_roundRobin_counterexample :
    akeys ((c4Db.islands.getD 0 Island.default).programs) = ["p1", "p2", "p3"] ∧
    akeys ((c4Db.islands.getD 1 Island.default).programs) = [] ∧
    c4Db.currentIsland = 1 := by
  refine ⟨by decide, by decide, by decide⟩

/-- C4 (amended): AddProgram consults the round-robin cursor only when
the incoming island id lies outside [0, N); a valid id — including the
zero value 0 that an unset `IslandID` field carries — overrides the
cursor and the program is stored on its assigned island, so programs
built without an island id all land on island 0, never round-robin.
The cursor itself advances by one modulo the island count on every
insert regardless of where the program landed, so after k inserts into
a fresh N-island store it reads k mod N — the cursor half of the claim
holds, as does the concrete final cursor value 1. -/
theorem addProgram_assignment_amended :
    (∀ (db : ProgramDatabase) (fid : String) (p : Program),
      p.id ≠ "" →
      0 ≤ p.islandID ∧ p.islandID < (db.islands.length : Int) →
      p.id ∈ akeys (((AddProgram db fid p).islands.getD p.islandID.toNat
        Island.default).programs)) ∧
    (∀ (db : ProgramDatabase) (fid : String) (p : Program),
      p.id ≠ "" →
      (p.islandID < 0 ∨ (db.islands.length : Int) ≤ p.islandID) →
      db.currentIsland < db.islands.length →
      p.id ∈ akeys (((AddProgram db fid p).islands.getD db.currentIsland
        Island.default).programs)) ∧
    (∀ (db : ProgramDatabase) (fid : String) (p : Program),
      (AddProgram db fid p).currentIsland =
        (db.currentIsland + 1) % db.islands.length) ∧
    (∀ (cfg : DatabaseConfig) (ps : List Program), 0 < cfg.numIslands →
      (addAll (New cfg) ps).currentIsland = ps.length % cfg.numIslands) ∧
    ("p2" ∈ akeys ((c4Db.islands.getD 0 Island.default).programs) ∧
     "p2" ∉ akeys ((c4Db.islands.getD 1 Island.default).programs) ∧
     c4Db.currentIsland = 1) := by
  refine ⟨?_, ?_, ?_, ?_, by decide, by decide, by decide⟩
  · intro db fid p hid hvalid
    exact addProgram_lands_on_assigned db fid p hid hvalid
  · intro db fid p hid hinv hcur
    exact addProgram_lands_on_cursor db fid p hid hinv hcur
  · intro db fid p
    exact addProgram_currentIsland db fid p
  · intro cfg ps hN
    have hcur : (New cfg).currentIsland < (New cfg).islands.length := by
      rw [New_islands_length]
      exact hN
    have := (addAll_cursor ps (New cfg) hcur).1
    rw [this, New_islands_length]
    simp [show (New cfg).currentIsland = 0 from rfl]

/-- C4 witness: a fourth zero-valued program added to the scenario
store lands on its assigned island 0, an out-of-range program added to
the one-program store lands on the cursor island, and the three-insert
scenario leaves the cursor at 3 mod 2. -/
theorem addProgram_assignment_amended_witness :
    (c4ProgZ 9).id ∈ akeys (((AddProgram c4Db "" (c4ProgZ 9)).islands.getD
      (c4ProgZ 9).islandID.toNat Island.default).programs) ∧
    (c10Prog 9).id ∈ akeys (((AddProgram c10Db "" (c10Prog 9)).islands.getD
      c10Db.currentIsland Island.default).programs) ∧
    (addAll (New c4Cfg) [c4ProgZ 1, c4ProgZ 2, c4ProgZ 3]).currentIsland = 3 % 2 :=
  ⟨addProgram_assignment_amended.1 c4Db "" (c4ProgZ 9) (by decide)
      ⟨by decide, by decide⟩,
   addProgram_assignment_amended.2.1 c10Db "" (c10Prog 9) (by decide)
      (Or.inl (by decide)) (by decide),
   addProgram_assignment_amended.2.2.2.1 c4Cfg [c4ProgZ 1, c4ProgZ 2, c4ProgZ 3]
      (by decide)⟩

/-! ## Claim C10: SampleMultiple -/

/-- Each island visit contributes at most one sample. -/
theorem phase1Step_length (db : ProgramDatabase) (gc : Nat → Nat)
    (acc : List Program) (i : Nat) :
    (phase1Step db gc acc i).length ≤ acc.length + 1 := by
  unfold phase1Step
  dsimp only
  split
  · simp
  · split <;> simp

/-- The per-island loop gathers at most one sample per visit. -/
theorem phase1_length_le (db : ProgramDatabase) (gc : Nat → Nat) :
    ∀ (l : List Nat) (acc : List Program),
      (l.foldl (phase1Step db gc) acc).length ≤ acc.length + l.length := by
  intro l
  induction l with
  | nil => intro acc; simp
  | cons i rest ih =>
      intro acc
      calc (List.foldl (phase1Step db gc) (phase1Step db gc acc i) rest).length
          ≤ (phase1Step db gc acc i).length + rest.length := ih _
        _ ≤ acc.length + 1 + rest.length :=
            Nat.add_le_add_right (phase1Step_length db gc acc i) _
        _ = acc.length + (i :: rest).length := by simp; omega

/-- On a store whose islands carry no grid occupants and no cached
best program, the per-island loop gathers nothing. -/
theorem phase1_empty (db : ProgramDatabase) (gc : Nat → Nat)
    (hempty : ∀ isl ∈ db.islands, isl.grid.cells = [] ∧ isl.bestProgram = none) :
    ∀ l : List Nat, l.foldl (phase1Step db gc) [] = [] := by
  have hstep : ∀ i, phase1Step db gc [] i = [] := by
    intro i
    unfold phase1Step
    dsimp only
    set idx := (db.currentIsland + i) % db.islands.length with hidx
    have hisl : (db.islands.getD idx Island.default).grid.cells = [] ∧
        (db.islands.getD idx Island.default).bestProgram = none := by
      by_cases hin : idx < db.islands.length
      · have hmem : db.islands.getD idx Island.default ∈ db.islands := by
          rw [List.getD_eq_getElem db.islands Island.default hin]
          exact List.getElem_mem hin
        exact hempty _ hmem
      · rw [List.getD_eq_default db.islands Island.default (le_of_not_lt hin)]
        exact ⟨rfl, rfl⟩
    rw [show SampleFromGrid (db.islands.getD idx Island.default) (gc i) = none by
      unfold SampleFromGrid
      rw [if_pos (by rw [hisl.1]; rfl)]]
    rw [hisl.2]
  intro l
  induction l with
  | nil => rfl
  | cons i rest ih =>
      show List.foldl (phase1Step db gc) (phase1Step db gc [] i) rest = []
      rw [hstep i]
      exact ih

/-- The top-up loop fills the list to the requested length when the
global index is non-empty. -/
theorem sampleTopUp_length (programs : List (String × Program)) (glc : Nat → Nat)
    (hne : programs ≠ []) :
    ∀ (rem step : Nat) (acc : List Program),
      (sampleTopUp programs glc step rem acc).length = acc.length + rem := by
  intro rem
  induction rem with
  | zero => intro step acc; simp [sampleTopUp]
  | succ r ih =>
      intro step acc
      unfold sampleTopUp
      rw [if_neg (by simpa [List.length_eq_zero] using hne)]
      rw [ih (step + 1) (acc ++ [_])]
      simp
      omega

/-- The top-up loop cannot draw from an empty global index. -/
theorem sampleTopUp_empty (glc : Nat → Nat) :
    ∀ (rem step : Nat) (acc : List Program),
      sampleTopUp [] glc step rem acc = acc := by
  intro rem
  cases rem with
  | zero => intro step acc; rfl
  | succ r =>
      intro step acc
      unfold sampleTopUp
      rw [if_pos (show ([] : List (String × Program)).length = 0 from rfl)]

/-- C10: for every positive count, SampleMultiple returns a nil error;
when the global index is non-empty the returned list holds exactly
`count` programs (duplicates permitted — the concrete one-program
store yields the same program twice); when the store holds no programs
at all (empty global index, no grid occupants, no cached best) the
returned list is empty rather than an error. -/
theorem sampleMultiple_contract :
    (∀ (db : ProgramDatabase) (count : Int) (gc glc : Nat → Nat), 0 < count →
      ∃ res, SampleMultiple db count gc glc = .ok res ∧
        (db.programs ≠ [] → res.length = count.toNat) ∧
        (db.programs = [] →
          (∀ isl ∈ db.islands, isl.grid.cells = [] ∧ isl.bestProgram = none) →
          res = [])) ∧
    SampleMultiple c10Db 2 (fun _ => 0) (fun _ => 0) =
      .ok [c10Prog 1, c10Prog 1] := by
  refine ⟨?_, by decide⟩
  intro db count gc glc hpos
  unfold SampleMultiple
  rw [if_neg (not_le.mpr hpos)]
  dsimp only
  refine ⟨_, rfl, ?_, ?_⟩
  · intro hne
    rw [sampleTopUp_length db.programs glc hne]
    have hle : ((List.range (min count.toNat db.islands.length)).foldl
        (phase1Step db gc) []).length ≤ count.toNat := by
      calc ((List.range (min count.toNat db.islands.length)).foldl
          (phase1Step db gc) []).length
          ≤ 0 + (List.range (min count.toNat db.islands.length)).length :=
            phase1_length_le db gc _ []
        _ ≤ count.toNat := by simp [Nat.min_le_left]
    omega
  · intro hglobal hislands
    rw [hglobal, phase1_empty db gc hislands, sampleTopUp_empty]

/-- C10 witness: a three-sample draw from the one-program store
succeeds with exactly three samples, and a draw from a fresh store
returns the empty list with a nil error. -/
theorem sampleMultiple_contract_witness :
    (∃ res, SampleMultiple c10Db 3 (fun _ => 0) (fun _ => 0) = .ok res ∧
      res.length = 3) ∧
    (∃ res, SampleMultiple (New c4Cfg) 3 (fun _ => 0) (fun _ => 0) = .ok res ∧
      res = []) := by
  constructor
  · obtain ⟨res, h1, h2, h3⟩ := sampleMultiple_contract.1 c10Db 3
      (fun _ => 0) (fun _ => 0) (by decide)
    exact ⟨res, h1, h2 (by decide)⟩
  · obtain ⟨res, h1, h2, h3⟩ := sampleMultiple_contract.1 (New c4Cfg) 3
      (fun _ => 0) (fun _ => 0) (by decide)
    exact ⟨res, h1, h3 (by decide) (by decide)⟩

/-! ## Claim C2: migration conserves the population -/

/-- Erasure filters the key list. -/
theorem akeys_aerase {α : Type} (m : List (String × α)) (k : String) :
    akeys (aerase m k) = (akeys m).filter (fun s => s ≠ k) := by
  induction m with
  | nil => rfl
  | cons kv rest ih =>
      obtain ⟨k₀, v₀⟩ := kv
      by_cases hk : k₀ = k
      · subst hk
        simp only [aerase, List.filter_cons, akeys_cons]
        rw [if_neg (by simp), if_neg (by simp)]
        exact ih
      · simp only [aerase, List.filter_cons, akeys_cons]
        rw [if_pos (by simpa using hk), if_pos (by simpa using hk)]
        simpa [akeys, aerase] using ih

/-- Removing one occurrence of a key from a duplicate-free list, as a
multiset identity. -/
theorem filter_ne_multiset (l : List String) (k : String) (hnd : l.Nodup)
    (hmem : k ∈ l) :
    ((l.filter (fun s => s ≠ k) : List String) : Multiset String) + {k} =
      (l : Multiset String) := by
  induction l with
  | nil => simp at hmem
  | cons a rest ih =>
      simp only [List.nodup_cons] at hnd
      rcases List.mem_cons.mp hmem with h | h
      · subst h
        have hrest : rest.filter (fun s => s ≠ k) = rest :=
          List.filter_eq_self.mpr (fun b hb =>
            decide_eq_true (fun he => hnd.1 (he ▸ hb)))
        simp only [List.filter_cons]
        rw [if_neg (by simp), hrest, add_comm]
        simp [Multiset.singleton_add]
      · by_cases ha : a = k
        · subst ha
          exact absurd h hnd.1
        · simp only [List.filter_cons]
          rw [if_pos (decide_eq_true ha)]
          simp only [← Multiset.cons_coe, Multiset.cons_add]
          rw [ih hnd.2 h]

/-- Unfolding the key multiset over the head island. -/
theorem keysMS_cons (isl : Island) (rest : List Island) :
    keysMS (isl :: rest) =
      (akeys isl.programs : Multiset String) + keysMS rest := by
  unfold keysMS islandKeys
  simp only [List.map_cons, List.flatten_cons]
  exact_mod_cast rfl

/-- Updating one island exchanges its key contribution in the overall
key multiset. -/
theorem keysMS_set (ls : List Island) :
    ∀ (i : Nat) (x : Island), i < ls.length →
      keysMS (ls.set i x) + (akeys (ls.getD i Island.default).programs : Multiset String) =
        keysMS ls + (akeys x.programs : Multiset String) := by
  induction ls with
  | nil => intro i x h; simp at h
  | cons isl rest ih =>
      intro i x h
      cases i with
      | zero =>
          rw [show (isl :: rest).set 0 x = x :: rest from rfl, keysMS_cons,
            keysMS_cons, List.getD_cons_zero]
          abel
      | succ i' =>
          rw [show (isl :: rest).set (i' + 1) x = isl :: rest.set i' x from rfl,
            keysMS_cons, keysMS_cons, List.getD_cons_succ, add_assoc, add_assoc,
            ih i' x (by simpa using h)]

/-- The total population counts the resident keys. -/
theorem storePopulation_eq_card (ls : List Island) :
    storePopulation ls = Multiset.card (keysMS ls) := by
  unfold storePopulation keysMS islandKeys
  rw [Multiset.coe_card, List.length_flatten]
  congr 1
  rw [List.map_map]
  congr 1
  funext isl
  simp [akeys]

/-- Inside a duplicate-free key family, a key resident on island `i`
is absent from any other island `t`. -/
theorem key_not_in_other_island (ls : List Island) (i t : Nat) (k : String)
    (hi : i < ls.length) (ht : t < ls.length) (hne : i ≠ t)
    (hnd : (islandKeys ls).Nodup)
    (hmem : k ∈ akeys (ls.getD i Island.default).programs) :
    k ∉ akeys (ls.getD t Island.default).programs := by
  have hmap := (List.nodup_flatten.mp hnd).2
  have hpair := List.pairwise_iff_getElem.mp hmap
  have hdisj : List.Disjoint (akeys (ls.getD i Island.default).programs)
      (akeys (ls.getD t Island.default).programs) := by
    rcases Nat.lt_or_ge i t with hlt | hge
    · have := hpair i t (by simpa using hi) (by simpa using ht) hlt
      rw [List.getElem_map, List.getElem_map] at this
      rw [List.getD_eq_getElem ls Island.default hi,
        List.getD_eq_getElem ls Island.default ht]
      exact this
    · have hlt : t < i := lt_of_le_of_ne hge (Ne.symm hne)
      have := hpair t i (by simpa using ht) (by simpa using hi) hlt
      rw [List.getElem_map, List.getElem_map] at this
      rw [List.getD_eq_getElem ls Island.default hi,
        List.getD_eq_getElem ls Island.default ht]
      exact this.symm
  exact hdisj hmem

/-- Inside a duplicate-free key family, each island's own key list is
duplicate-free. -/
theorem island_keys_nodup (ls : List Island) (i : Nat) (hi : i < ls.length)
    (hnd : (islandKeys ls).Nodup) :
    (akeys (ls.getD i Island.default).programs).Nodup := by
  have hall := (List.nodup_flatten.mp hnd).1
  rw [List.getD_eq_getElem ls Island.default hi]
  apply hall
  have hi' : i < (ls.map (fun isl => akeys isl.programs)).length := by simpa using hi
  have hget : (ls.map (fun isl => akeys isl.programs))[i] = akeys ls[i].programs :=
    List.getElem_map _
  rw [← hget]
  exact List.getElem_mem hi'

/-- Exchanging one key between two islands keeps the key multiset. -/
theorem keysMS_move (islands : List Island) (i t : Nat) (src' tgt' : Island)
    (kid : String) (hi : i < islands.length) (ht : t < islands.length)
    (hne : i ≠ t)
    (hsrc : (akeys src'.programs : Multiset String) + {kid} =
      (akeys (islands.getD i Island.default).programs : Multiset String))
    (htgt : (akeys tgt'.programs : Multiset String) =
      (akeys (islands.getD t Island.default).programs : Multiset String) + {kid}) :
    keysMS ((islands.set i src').set t tgt') = keysMS islands := by
  have h2 := keysMS_set (islands.set i src') t tgt' (by simpa using ht)
  have hget : (islands.set i src').getD t Island.default =
      islands.getD t Island.default := by
    simp [List.getD_eq_getElem?_getD, List.getElem?_set_ne hne]
  rw [hget, htgt] at h2
  have h1 := keysMS_set islands i src' hi
  have hMS1 : keysMS (islands.set i src') + {kid} = keysMS islands := by
    have hc : keysMS (islands.set i src') + {kid} +
        (akeys src'.programs : Multiset String) =
        keysMS islands + (akeys src'.programs : Multiset String) := by
      calc keysMS (islands.set i src') + {kid} +
            (akeys src'.programs : Multiset String)
          = keysMS (islands.set i src') +
              ((akeys src'.programs : Multiset String) + {kid}) := by abel
        _ = keysMS (islands.set i src') +
              (akeys (islands.getD i Island.default).programs : Multiset String) := by
              rw [hsrc]
        _ = keysMS islands + (akeys src'.programs : Multiset String) := h1
    exact add_right_cancel hc
  have hc2 : keysMS ((islands.set i src').set t tgt') +
      (akeys (islands.getD t Island.default).programs : Multiset String) =
      (keysMS (islands.set i src') + {kid}) +
        (akeys (islands.getD t Island.default).programs : Multiset String) := by
    rw [h2]
    abel
  rw [add_right_cancel hc2, hMS1]

/-- The key-value identification holds on every island that an
in-range read can return. -/
theorem hkm_getD (islands : List Island)
    (hkm : ∀ isl ∈ islands, ∀ kv ∈ isl.programs, kv.1 = kv.2.id)
    (x : Nat) (hx : x < islands.length) :
    ∀ kv ∈ (islands.getD x Island.default).programs, kv.1 = kv.2.id := by
  apply hkm
  rw [List.getD_eq_getElem islands Island.default hx]
  exact List.getElem_mem hx

/-- One migration move permutes the key multiset, keeps the island
count, removes exactly the moved id from the source island, and keeps
the key-value identification. -/
theorem moveProgram_spec (islands : List Island) (i t : Nat) (p : Program)
    (hi : i < islands.length) (ht : t < islands.length) (hne : i ≠ t)
    (hnd : (islandKeys islands).Nodup)
    (hmem : p.id ∈ akeys ((islands.getD i Island.default).programs))
    (hkm : ∀ isl ∈ islands, ∀ kv ∈ isl.programs, kv.1 = kv.2.id) :
    keysMS (moveProgram islands i t p) = keysMS islands ∧
    (moveProgram islands i t p).length = islands.length ∧
    (∀ k, k ∈ akeys ((moveProgram islands i t p).getD i Island.default).programs ↔
      (k ∈ akeys ((islands.getD i Island.default).programs) ∧ k ≠ p.id)) ∧
    (∀ isl ∈ moveProgram islands i t p, ∀ kv ∈ isl.programs, kv.1 = kv.2.id) := by
  have hget : (islands.set i
      { islands.getD i Island.default with
        programs := aerase (islands.getD i Island.default).programs p.id }).getD t
      Island.default = islands.getD t Island.default := by
    simp [List.getD_eq_getElem?_getD, List.getElem?_set_ne hne]
  have hnotin : p.id ∉ akeys ((islands.getD t Island.default).programs) :=
    key_not_in_other_island islands i t p.id hi ht hne hnd hmem
  refine ⟨?_, ?_, ?_, ?_⟩
  · unfold moveProgram
    dsimp only
    apply keysMS_move islands i t _ _ p.id hi ht hne
    · show (akeys (aerase (islands.getD i Island.default).programs p.id) :
        Multiset String) + {p.id} = _
      rw [akeys_aerase]
      exact filter_ne_multiset _ p.id (island_keys_nodup islands i hi hnd) hmem
    · rw [addToGrid_programs]
      show (akeys (ainsert _ p.id _) : Multiset String) = _
      rw [hget, akeys_ainsert_of_not_mem _ _ _ hnotin, ← Multiset.coe_add,
        Multiset.coe_singleton]
  · unfold moveProgram
    dsimp only
    simp
  · intro k
    unfold moveProgram
    dsimp only
    rw [show ∀ (l : List Island) (x : Island),
        (l.set t x).getD i Island.default = l.getD i Island.default from
      fun l x => by simp [List.getD_eq_getElem?_getD,
        List.getElem?_set_ne (Ne.symm hne)]]
    rw [List.getD_eq_getElem?_getD, List.getElem?_set_self hi, Option.getD_some]
    show k ∈ akeys (aerase (islands.getD i Island.default).programs p.id) ↔ _
    exact mem_akeys_aerase _ p.id k
  · unfold moveProgram
    dsimp only
    intro isl hisl
    rcases List.mem_or_eq_of_mem_set hisl with hisl1 | hisl1
    · rcases List.mem_or_eq_of_mem_set hisl1 with hisl2 | hisl2
      · exact hkm isl hisl2
      · subst hisl2
        exact aerase_forall _ _ _ (hkm_getD islands hkm i hi)
    · subst hisl1
      rw [addToGrid_programs, hget]
      exact ainsert_forall (fun kv : String × Program => kv.1 = kv.2.id) _ _ _
        (hkm_getD islands hkm t ht) rfl

/-- Moving a batch of distinct resident programs out of one island
permutes the key multiset and keeps the island count and the key-value
identification. -/
theorem moveFold_spec (i t : Nat) (hne : i ≠ t) :
    ∀ (cs : List Program) (islands : List Island),
      i < islands.length → t < islands.length →
      (islandKeys islands).Nodup →
      (∀ isl ∈ islands, ∀ kv ∈ isl.programs, kv.1 = kv.2.id) →
      (cs.map (fun c => c.id)).Nodup →
      (∀ c ∈ cs, c.id ∈ akeys ((islands.getD i Island.default).programs)) →
      keysMS (cs.foldl (fun isls q => moveProgram isls i t q) islands) =
        keysMS islands ∧
      (cs.foldl (fun isls q => moveProgram isls i t q) islands).length =
        islands.length ∧
      (∀ isl ∈ cs.foldl (fun isls q => moveProgram isls i t q) islands,
        ∀ kv ∈ isl.programs, kv.1 = kv.2.id) := by
  intro cs
  induction cs with
  | nil => intro islands _ _ _ hkm _ _; exact ⟨rfl, rfl, hkm⟩
  | cons c rest ih =>
      intro islands hi ht hnd hkm hcnd hcmem
      obtain ⟨hms, hlen, hmemiff, hkm'⟩ :=
        moveProgram_spec islands i t c hi ht hne hnd (hcmem c (by simp)) hkm
      have hnd' : (islandKeys (moveProgram islands i t c)).Nodup := by
        have hc : (keysMS (moveProgram islands i t c)).Nodup := by
          rw [hms]
          exact Multiset.coe_nodup.mpr hnd
        exact Multiset.coe_nodup.mp hc
      simp only [List.map_cons, List.nodup_cons] at hcnd
      have hrest_mem : ∀ q ∈ rest,
          q.id ∈ akeys ((moveProgram islands i t c).getD i Island.default).programs := by
        intro q hq
        rw [hmemiff q.id]
        refine ⟨hcmem q (List.mem_cons_of_mem _ hq), ?_⟩
        intro heq
        exact hcnd.1 (heq ▸ List.mem_map_of_mem (fun c => c.id) hq)
      obtain ⟨g1, g2, g3⟩ := ih (moveProgram islands i t c) (hlen ▸ hi) (hlen ▸ ht)
        hnd' hkm' hcnd.2 hrest_mem
      refine ⟨?_, ?_, g3⟩
      · show keysMS (List.foldl _ (moveProgram islands i t c) rest) = _
        rw [g1, hms]
      · show (List.foldl _ (moveProgram islands i t c) rest).length = _
        rw [g2, hlen]

/-- Rewriting one island's migration counter does not change the key
multiset. -/
theorem keysMS_set_counter (ls : List Island) (i : Nat) (hi : i < ls.length)
    (mnew : Nat) :
    keysMS (ls.set i { ls.getD i Island.default with migrated := mnew }) =
      keysMS ls := by
  have h := keysMS_set ls i { ls.getD i Island.default with migrated := mnew } hi
  have hsame : akeys ({ ls.getD i Island.default with migrated := mnew } :
      Island).programs = akeys (ls.getD i Island.default).programs := rfl
  rw [hsame] at h
  exact add_right_cancel h

/-- One island's migration step (candidate selection, batch move,
counter update) permutes the key multiset and keeps the island count
and the key-value identification. -/
theorem migrateIsland_spec (rate : ℚ) (islands : List Island) (i migrated : Nat)
    (hN : 2 ≤ islands.length) (hi : i < islands.length)
    (hnd : (islandKeys islands).Nodup)
    (hkm : ∀ isl ∈ islands, ∀ kv ∈ isl.programs, kv.1 = kv.2.id) :
    keysMS (migrateIsland rate islands i migrated).1 = keysMS islands ∧
    (migrateIsland rate islands i migrated).1.length = islands.length ∧
    (∀ isl ∈ (migrateIsland rate islands i migrated).1,
      ∀ kv ∈ isl.programs, kv.1 = kv.2.id) := by
  have ht : (i + 1) % islands.length < islands.length := Nat.mod_lt _ (by omega)
  have hne : i ≠ (i + 1) % islands.length := by
    intro h
    rcases Nat.lt_or_ge (i + 1) islands.length with hlt | hge
    · rw [Nat.mod_eq_of_lt hlt] at h
      omega
    · have hEq : i + 1 = islands.length := by omega
      rw [hEq, Nat.mod_self] at h
      omega
  have hknodup := island_keys_nodup islands i hi hnd
  have hkmi := hkm_getD islands hkm i hi
  -- properties of any prefix of the candidate value list
  have hcand : ∀ n : Nat,
      (((((islands.getD i Island.default).programs.filter
        (fun kv => ERat.ltB ((islands.getD i Island.default).bestScore.scaleBy 0.8)
          (.fin kv.2.score))).map (fun kv => kv.2)).take n).map
            (fun c => c.id)).Nodup ∧
      ∀ c ∈ ((((islands.getD i Island.default).programs.filter
        (fun kv => ERat.ltB ((islands.getD i Island.default).bestScore.scaleBy 0.8)
          (.fin kv.2.score))).map (fun kv => kv.2)).take n),
        c.id ∈ akeys ((islands.getD i Island.default).programs) := by
    intro n
    constructor
    · rw [List.map_take]
      apply List.Sublist.nodup (List.take_sublist _ _)
      rw [List.map_map]
      have hmapeq : ((islands.getD i Island.default).programs.filter
          (fun kv => ERat.ltB ((islands.getD i Island.default).bestScore.scaleBy 0.8)
            (.fin kv.2.score))).map ((fun c : Program => c.id) ∘ (fun kv => kv.2)) =
          akeys ((islands.getD i Island.default).programs.filter
            (fun kv => ERat.ltB ((islands.getD i Island.default).bestScore.scaleBy 0.8)
              (.fin kv.2.score))) := by
        apply List.map_congr_left
        intro kv hkv
        exact (hkmi kv (List.mem_of_mem_filter hkv)).symm
      rw [hmapeq]
      exact List.Sublist.nodup
        (List.Sublist.map _ (List.filter_sublist _)) hknodup
    · intro c hc
      obtain ⟨kv, hkv, hkv2⟩ := List.mem_map.mp (List.mem_of_mem_take hc)
      rw [← hkv2, ← hkmi kv (List.mem_of_mem_filter hkv)]
      exact List.mem_map_of_mem _ (List.mem_of_mem_filter hkv)
  unfold migrateIsland
  dsimp only
  obtain ⟨f1, f2, f3⟩ := moveFold_spec i ((i + 1) % islands.length) hne _ islands
    hi ht hnd hkm (hcand _).1 (hcand _).2
  refine ⟨?_, ?_, ?_⟩
  · rw [keysMS_set_counter _ i (by rw [f2]; exact hi) _]
    exact f1
  · rw [List.length_set]
    exact f2
  · intro isl hisl
    rcases List.mem_or_eq_of_mem_set hisl with h | h
    · exact f3 isl h
    · subst h
      exact hkm_getD _ f3 i (by rw [f2]; exact hi)

/-- The ring loop over the source islands permutes the key multiset
and keeps the island count. -/
theorem migrateFold_spec (rate : ℚ) :
    ∀ (l : List Nat) (islands : List Island) (migrated : Nat),
      2 ≤ islands.length → (∀ j ∈ l, j < islands.length) →
      (islandKeys islands).Nodup →
      (∀ isl ∈ islands, ∀ kv ∈ isl.programs, kv.1 = kv.2.id) →
      keysMS (l.foldl (fun acc j => migrateIsland rate acc.1 j acc.2)
        (islands, migrated)).1 = keysMS islands ∧
      (l.foldl (fun acc j => migrateIsland rate acc.1 j acc.2)
        (islands, migrated)).1.length = islands.length := by
  intro l
  induction l with
  | nil => exact fun islands migrated _ _ _ _ => ⟨rfl, rfl⟩
  | cons j rest ih =>
      intro islands migrated hN hjs hnd hkm
      obtain ⟨h1, h2, h3⟩ := migrateIsland_spec rate islands j migrated hN
        (hjs j (by simp)) hnd hkm
      have hnd' : (islandKeys (migrateIsland rate islands j migrated).1).Nodup := by
        have hc : (keysMS (migrateIsland rate islands j migrated).1).Nodup := by
          rw [h1]
          exact Multiset.coe_nodup.mpr hnd
        exact Multiset.coe_nodup.mp hc
      obtain ⟨g1, g2⟩ := ih (migrateIsland rate islands j migrated).1
        (migrateIsland rate islands j migrated).2 (by rw [h2]; exact hN)
        (fun j' hj' => by rw [h2]; exact hjs j' (List.mem_cons_of_mem _ hj'))
        hnd' h3
      constructor
      · show keysMS (rest.foldl _ (migrateIsland rate islands j migrated)).1 = _
        rw [show (migrateIsland rate islands j migrated) =
          ((migrateIsland rate islands j migrated).1,
           (migrateIsland rate islands j migrated).2) from rfl, g1, h1]
      · show (rest.foldl _ (migrateIsland rate islands j migrated)).1.length = _
        rw [show (migrateIsland rate islands j migrated) =
          ((migrateIsland rate islands j migrated).1,
           (migrateIsland rate islands j migrated).2) from rfl, g2, h2]

/-- C2: MigratePrograms leaves the global id-to-program index
untouched, permutes the multiset of resident program ids (programs
move, none appears twice, none is lost), hence preserves the total
population over the islands; therefore the equality between the sum of
island populations and the size of the global index is preserved by
migration.  The hypothesis is the standard store shape: every resident
id lives on exactly one island and is bound to the program that
carries it. -/
theorem migratePrograms_conservation (db : ProgramDatabase)
    (hwf : StoreWF db.islands) :
    (MigratePrograms db).programs = db.programs ∧
    keysMS (MigratePrograms db).islands = keysMS db.islands ∧
    storePopulation (MigratePrograms db).islands = storePopulation db.islands ∧
    (storePopulation db.islands = db.programs.length →
      storePopulation (MigratePrograms db).islands =
        (MigratePrograms db).programs.length) := by
  obtain ⟨hnd, hkm⟩ := hwf
  by_cases hN : db.islands.length < 2
  · have hid : MigratePrograms db = db := by
      unfold MigratePrograms
      rw [if_pos hN]
    rw [hid]
    exact ⟨rfl, rfl, rfl, fun h => h⟩
  · have hN2 : 2 ≤ db.islands.length := le_of_not_lt hN
    obtain ⟨h1, h2⟩ := migrateFold_spec db.config.migrationRate
      (List.range db.islands.length) db.islands 0 hN2
      (fun j hj => List.mem_range.mp hj) hnd hkm
    have hprog : (MigratePrograms db).programs = db.programs := by
      unfold MigratePrograms
      rw [if_neg hN]
    have hisl : (MigratePrograms db).islands =
        ((List.range db.islands.length).foldl
          (fun acc j => migrateIsland db.config.migrationRate acc.1 j acc.2)
          (db.islands, 0)).1 := by
      unfold MigratePrograms
      rw [if_neg hN]
    refine ⟨hprog, ?_, ?_, ?_⟩
    · rw [hisl]
      exact h1
    · rw [hisl, storePopulation_eq_card, storePopulation_eq_card, h1]
    · intro h
      rw [hisl, storePopulation_eq_card, h1, ← storePopulation_eq_card, h, hprog]

/-- C2 witness: the three-island, twelve-program conservation scenario
keeps all twelve programs and the global index. -/
theorem migratePrograms_conservation_witness :
    storePopulation (MigratePrograms c2Db).islands =
      storePopulation c2Db.islands ∧
    (MigratePrograms c2Db).programs = c2Db.programs ∧
    storePopulation c2Db.islands = 12 :=
  ⟨(migratePrograms_conservation c2Db ⟨by decide, by decide⟩).2.2.1,
   (migratePrograms_conservation c2Db ⟨by decide, by decide⟩).1,
   by decide⟩

end OpenEvolveGo
